import Mathlib

/-
  Verification development for the beads issue tracker (Python port).

  This file shallowly embeds the storage/synchronization core of the
  repository into Lean 4: the issue data model and its canonical content
  hash (src/beads/models.py), the SQLite-backed store operations
  (src/beads/storage/sqlite_store.py) translated as explicit state
  passing over an in-memory store state, the JSONL importer
  (src/beads/importer.py), the exporter (src/beads/export.py) and the
  identifier hierarchy helpers (src/beads/id_gen.py).

  Machine integers are modelled as Nat/Int with explicit reduction
  modulo 2^32 where the SHA-256 compression function needs it.
  Timestamps are modelled as Nat (RFC3339 strings compare
  chronologically, so Nat order is faithful). Python floats are
  modelled as rationals rendered with six decimals. Fallible
  operations return Except or pair an Option error with the resulting
  state.
-/

set_option maxRecDepth 100000

namespace Beads

/-! ### SHA-256 over byte lists

Executable SHA-256 matching `hashlib.sha256`. Bytes are `Nat` values
below 256; 32-bit words are `Nat` values reduced modulo `2 ^ 32`. -/
def u32 (n : Nat) : Nat := n % 4294967296

/-- Rotate a 32-bit word right by `n` (for `0 < n < 32`), expressed with
division and multiplication so the kernel can evaluate it fast. -/
def rotr (n x : Nat) : Nat := x / 2 ^ n + x % 2 ^ n * 2 ^ (32 - n)

/-- Logical right shift on a 32-bit word. -/
def shr (n x : Nat) : Nat := x / 2 ^ n

/-- Bitwise complement on a 32-bit word (valid for `x < 2 ^ 32`). -/
def compl32 (x : Nat) : Nat := 4294967295 - x

/-- The 64 SHA-256 round constants (FIPS 180-4), written in decimal. -/
def sha256k : List Nat :=
  [1116352408, 1899447441, 3049323471, 3921009573, 961987163,
   1508970993, 2453635748, 2870763221, 3624381080, 310598401,
   607225278, 1426881987, 1925078388, 2162078206, 2614888103,
   3248222580, 3835390401, 4022224774, 264347078, 604807628,
   770255983, 1249150122, 1555081692, 1996064986, 2554220882,
   2821834349, 2952996808, 3210313671, 3336571891, 3584528711,
   113926993, 338241895, 666307205, 773529912, 1294757372,
   1396182291, 1695183700, 1986661051, 2177026350, 2456956037,
   2730485921, 2820302411, 3259730800, 3345764771, 3516065817,
   3600352804, 4094571909, 275423344, 430227734, 506948616,
   659060556, 883997877, 958139571, 1322822218, 1537002063,
   1747873779, 1955562222, 2024104815, 2227730452, 2361852424,
   2428436474, 2756734187, 3204031479, 3329325298]

/-- Working state: eight 32-bit words. -/
structure H8 where
  a : Nat
  b : Nat
  c : Nat
  d : Nat
  e : Nat
  f : Nat
  g : Nat
  h : Nat
deriving Repr, DecidableEq

def sha256init : H8 :=
  ⟨1779033703, 3144134277, 1013904242, 2773480762,
   1359893119, 2600822924, 528734635, 1541459225⟩

/-- Extend a message schedule by one word. -/
def extendStep (ws : List Nat) : List Nat :=
  let t := ws.length
  let w15 := ws.getD (t - 15) 0
  let w2 := ws.getD (t - 2) 0
  let w16 := ws.getD (t - 16) 0
  let w7 := ws.getD (t - 7) 0
  let s0 := rotr 7 w15 ^^^ rotr 18 w15 ^^^ shr 3 w15
  let s1 := rotr 17 w2 ^^^ rotr 19 w2 ^^^ shr 10 w2
  ws ++ [u32 (w16 + s0 + w7 + s1)]

def buildSchedule : Nat → List Nat → List Nat
  | 0, ws => ws
  | n + 1, ws => buildSchedule n (extendStep ws)

/-- One compression round. -/
def roundFn (st : H8) (kw : Nat × Nat) : H8 :=
  let s1 := rotr 6 st.e ^^^ rotr 11 st.e ^^^ rotr 25 st.e
  let ch := (st.e &&& st.f) ^^^ (compl32 st.e &&& st.g)
  let t1 := u32 (st.h + s1 + ch + kw.1 + kw.2)
  let s0 := rotr 2 st.a ^^^ rotr 13 st.a ^^^ rotr 22 st.a
  let maj := (st.a &&& st.b) ^^^ (st.a &&& st.c) ^^^ (st.b &&& st.c)
  let t2 := u32 (s0 + maj)
  ⟨u32 (t1 + t2), st.a, st.b, st.c, u32 (st.d + t1), st.e, st.f, st.g⟩

/-- Big-endian 32-bit words of a 64-byte block. -/
def blockWords (bs : List Nat) : List Nat :=
  (List.range 16).map fun i =>
    bs.getD (4 * i) 0 * 16777216 + bs.getD (4 * i + 1) 0 * 65536 +
      bs.getD (4 * i + 2) 0 * 256 + bs.getD (4 * i + 3) 0

/-- Compress one 64-byte block into the running hash state. -/
def compress (st : H8) (block : List Nat) : H8 :=
  let ws := buildSchedule 48 (blockWords block)
  let r := (sha256k.zip ws).foldl roundFn st
  ⟨u32 (st.a + r.a), u32 (st.b + r.b), u32 (st.c + r.c), u32 (st.d + r.d),
   u32 (st.e + r.e), u32 (st.f + r.f), u32 (st.g + r.g), u32 (st.h + r.h)⟩

/-- Big-endian bytes of the bit length, 8 bytes. -/
def lenBytes (len : Nat) : List Nat :=
  (List.range 8).map fun i => 8 * len / 2 ^ (8 * (7 - i)) % 256

/-- SHA-256 padding: append `0x80`, zeros, then the 64-bit bit length. -/
def padMessage (msg : List Nat) : List Nat :=
  msg ++ [128] ++ List.replicate ((64 - (msg.length + 9) % 64) % 64) 0 ++
    lenBytes msg.length

/-- Process 64-byte blocks, fuel-bounded (fuel `≥` the number of blocks). -/
def processBlocks : Nat → H8 → List Nat → H8
  | 0, st, _ => st
  | _ + 1, st, [] => st
  | fuel + 1, st, bs => processBlocks fuel (compress st (bs.take 64)) (bs.drop 64)

def sha256 (msg : List Nat) : H8 :=
  let padded := padMessage msg
  processBlocks padded.length sha256init padded

/-- Big-endian bytes of one 32-bit word. -/
def be4 (w : Nat) : List Nat := [w / 16777216 % 256, w / 65536 % 256, w / 256 % 256, w % 256]

def digestBytes (st : H8) : List Nat :=
  be4 st.a ++ be4 st.b ++ be4 st.c ++ be4 st.d ++ be4 st.e ++ be4 st.f ++ be4 st.g ++ be4 st.h

/-- Lowercase hex digit for `n < 16`. -/
def hexDigit (n : Nat) : Char :=
  if n < 10 then Char.ofNat (48 + n) else Char.ofNat (87 + n)

def hexByte (b : Nat) : List Char := [hexDigit (b / 16 % 16), hexDigit (b % 16)]

def toHex (bytes : List Nat) : String := String.mk ((bytes.map hexByte).flatten)

/-- The 64-character lowercase hex digest, as `hashlib.sha256(...).hexdigest()`. -/
def sha256hex (msg : List Nat) : String := toHex (digestBytes (sha256 msg))

/-- UTF-8 encoding of a code point. -/
def utf8Bytes (c : Nat) : List Nat :=
  if c < 128 then [c]
  else if c < 2048 then [192 + c / 64, 128 + c % 64]
  else if c < 65536 then [224 + c / 4096, 128 + c / 64 % 64, 128 + c % 64]
  else [240 + c / 262144, 128 + c / 4096 % 64, 128 + c / 64 % 64, 128 + c % 64]

/-- UTF-8 bytes of a string, as Python's `s.encode("utf-8")`. -/
def strBytes (s : String) : List Nat := (s.toList.map fun c => utf8Bytes c.toNat).flatten

/-! ### Data model (src/beads/models.py)

Timestamps are `Nat` (RFC3339 strings in one format compare
chronologically, so `Nat` order is faithful); optional timestamps are
`Option Nat`. Python floats are modelled as `Rat`; `dict` payloads with
fixed keys (`creator`, `bonded_from` entries, `validations` entries)
are modelled as structures whose fields mirror the keys read by
`compute_content_hash` via `.get`. A validation timestamp reaches the
hash as a string (the `datetime` branch normalizes to RFC3339 with a
`Z` suffix first), so it is carried as `String` here. -/
/-- HOP entity reference: the four keys `compute_content_hash` reads. -/
structure EntityRef where
  name : String := ""
  platform : String := ""
  org : String := ""
  id : String := ""
deriving Repr, DecidableEq

/-- One `bonded_from` entry: the three keys the hash reads. -/
structure BondRef where
  source_id : String := ""
  bond_type : String := ""
  bond_point : String := ""
deriving Repr, DecidableEq

/-- One `validations` entry: the four keys the hash reads. -/
structure ValidationRec where
  validator : Option EntityRef := none
  outcome : String := ""
  timestamp : String := ""
  score : Option Rat := none
deriving Repr, DecidableEq

/-- A dependency edge (`models.Dependency`). -/
structure Dep where
  issue_id : String
  depends_on_id : String
  type : String := "blocks"
  created_at : Nat := 0
  created_by : String := ""
  metadata : String := ""
  thread_id : String := ""
deriving Repr, DecidableEq

/-- A comment (`models.Comment`). Autoincrement row ids are not
modelled (`id` is kept as given; no claim depends on it). -/
structure CommentRec where
  id : Nat := 0
  issue_id : String := ""
  author : String := ""
  text : String := ""
  created_at : Nat := 0
deriving Repr, DecidableEq

/-- An audit event row (`models.Event` / the `events` table). -/
structure EventRec where
  issue_id : String
  event_type : String
  actor : String
  old_value : Option String := none
  new_value : Option String := none
  comment : Option String := none
  created_at : Nat := 0
deriving Repr, DecidableEq

/-- The issue record (`models.Issue`), with the dataclass defaults.
`metadata` is the free-form JSON string; `timeout` is Go-duration
nanoseconds. Compaction bookkeeping fields not read by any modelled
operation (`compaction_level`, `compacted_at`, `compacted_at_commit`,
`original_size`) are carried for completeness. -/
structure Issue where
  id : String := ""
  content_hash : String := ""
  title : String := ""
  description : String := ""
  design : String := ""
  acceptance_criteria : String := ""
  notes : String := ""
  spec_id : String := ""
  status : String := "open"
  priority : Int := 2
  issue_type : String := "task"
  assignee : String := ""
  owner : String := ""
  estimated_minutes : Option Int := none
  created_at : Nat := 0
  created_by : String := ""
  updated_at : Nat := 0
  closed_at : Option Nat := none
  close_reason : String := ""
  closed_by_session : String := ""
  due_at : Option Nat := none
  defer_until : Option Nat := none
  external_ref : Option String := none
  source_system : String := ""
  metadata : String := ""
  compaction_level : Int := 0
  compacted_at : Option Nat := none
  compacted_at_commit : Option String := none
  original_size : Int := 0
  labels : List String := []
  dependencies : List Dep := []
  comments : List CommentRec := []
  deleted_at : Option Nat := none
  deleted_by : String := ""
  delete_reason : String := ""
  original_type : String := ""
  sender : String := ""
  ephemeral : Bool := false
  wisp_type : String := ""
  pinned : Bool := false
  is_template : Bool := false
  bonded_from : List BondRef := []
  creator : Option EntityRef := none
  validations : List ValidationRec := []
  quality_score : Option Rat := none
  crystallizes : Bool := false
  await_type : String := ""
  await_id : String := ""
  timeout : Int := 0
  waiters : List String := []
  holder : String := ""
  hook_bead : String := ""
  role_bead : String := ""
  agent_state : String := ""
  role_type : String := ""
  rig : String := ""
  last_activity : Option Nat := none
  mol_type : String := ""
  work_type : String := ""
  event_kind : String := ""
  actor : String := ""
  target : String := ""
  payload : String := ""
deriving Repr, DecidableEq

/-! ### Canonical content hash (Issue.compute_content_hash)

The writer primitives append to a byte stream; the hash is the SHA-256
hex digest of the stream. -/
/-- `write_str`: UTF-8 bytes then a NUL byte. -/
def writeStr (s : String) : List Nat := strBytes s ++ [0]

/-- `write_int`: decimal ASCII then NUL. -/
def writeInt (n : Int) : List Nat := strBytes (toString n) ++ [0]

/-- `write_str_optional`: bytes-if-present, then NUL either way. -/
def writeStrOpt : Option String → List Nat
  | some s => strBytes s ++ [0]
  | none => [0]

/-- `write_flag`: the label's bytes if the flag is set, then NUL. -/
def writeFlag (b : Bool) (label : String) : List Nat :=
  (if b then strBytes label else []) ++ [0]

/-- Left-pad a string with zeros to `n` characters. -/
def zeroPad (n : Nat) (s : String) : String :=
  String.mk (List.replicate (n - s.length) '0') ++ s

/-- Render a rational like CPython's percent-f float formatting: sign, integer part,
dot, exactly six fractional digits (rounded to nearest). -/
def formatFloat (q : Rat) : String :=
  let m := ((2 * (1000000 * |q|).num + ((1000000 * |q|).den : Int)) /
    (2 * ((1000000 * |q|).den : Int))).toNat
  (if q < 0 then "-" else "") ++ toString (m / 1000000) ++ "." ++
    zeroPad 6 (toString (m % 1000000))

/-- `write_float_optional`: `%f`-formatted bytes if present, then NUL. -/
def writeFloatOpt : Option Rat → List Nat
  | some q => strBytes (formatFloat q) ++ [0]
  | none => [0]

/-- `write_duration`: decimal nanoseconds then NUL. -/
def writeDuration (d : Int) : List Nat := strBytes (toString d) ++ [0]

/-- `write_entity_ref`: four `write_str` if present, else nothing. -/
def writeEntityRef : Option EntityRef → List Nat
  | some e => writeStr e.name ++ writeStr e.platform ++ writeStr e.org ++ writeStr e.id
  | none => []

/-- One `bonded_from` entry's contribution. -/
def writeBondRef (br : BondRef) : List Nat :=
  writeStr br.source_id ++ writeStr br.bond_type ++ writeStr br.bond_point

/-- One `validations` entry's contribution. -/
def writeValidation (v : ValidationRec) : List Nat :=
  writeEntityRef v.validator ++ writeStr v.outcome ++ writeStr v.timestamp ++
    writeFloatOpt v.score

/-- The tagged, null-terminated byte stream hashed by
`Issue.compute_content_hash`, with fields in the source's order. -/
def contentHashBytes (i : Issue) : List Nat :=
  writeStr i.title ++ writeStr i.description ++ writeStr i.design ++
  writeStr i.acceptance_criteria ++ writeStr i.notes ++ writeStr i.spec_id ++
  writeStr i.status ++ writeInt i.priority ++ writeStr i.issue_type ++
  writeStr i.assignee ++ writeStr i.owner ++ writeStr i.created_by ++
  writeStrOpt i.external_ref ++ writeStr i.source_system ++
  writeFlag i.pinned "pinned" ++ writeStr i.metadata ++
  writeFlag i.is_template "template" ++
  (i.bonded_from.map writeBondRef).flatten ++
  writeEntityRef i.creator ++
  (i.validations.map writeValidation).flatten ++
  writeFloatOpt i.quality_score ++ writeFlag i.crystallizes "crystallizes" ++
  writeStr i.await_type ++ writeStr i.await_id ++ writeDuration i.timeout ++
  (i.waiters.map writeStr).flatten ++
  writeStr i.holder ++
  writeStr i.hook_bead ++ writeStr i.role_bead ++ writeStr i.agent_state ++
  writeStr i.role_type ++ writeStr i.rig ++
  writeStr i.mol_type ++ writeStr i.work_type ++
  writeStr i.event_kind ++ writeStr i.actor ++ writeStr i.target ++
  writeStr i.payload

/-- `Issue.compute_content_hash`: the SHA-256 hex digest of the stream. -/
def computeContentHash (i : Issue) : String := sha256hex (contentHashBytes i)

/-! ### Shape of the digest: 64 lowercase hex characters. -/
def hexAlphabet : List Char := "0123456789abcdef".toList

/-! ### JSON acceptance (models `json.loads` validity for `Issue.validate`)

A fuel-bounded recursive-descent acceptor for the JSON grammar,
used only by the `metadata must be valid JSON` branch of `validate`.
Escape sequences are accepted loosely (any escaped character) and the
no-leading-zero rule for numbers is not enforced; no claim instance
exercises those corners. -/
def lbraceChar : Char := Char.ofNat 123

def rbraceChar : Char := Char.ofNat 125

def skipWs : List Char → List Char
  | [] => []
  | c :: rest =>
    if c = ' ' ∨ c = '\t' ∨ c = '\n' ∨ c = '\r' then skipWs rest else c :: rest

/-- Scan the remainder of a JSON string after the opening quote. -/
def jsonStringRest : List Char → Option (List Char)
  | [] => none
  | c :: rest =>
    if c = '"' then some rest
    else if c = '\\' then
      match rest with
      | [] => none
      | _ :: rest2 => jsonStringRest rest2
    else jsonStringRest rest

/-- Accept a JSON number starting at `cs`. -/
def jsonNumber (cs : List Char) : Option (List Char) :=
  let cs1 := match cs with
    | '-' :: r => r
    | _ => cs
  let intDigits := cs1.takeWhile Char.isDigit
  if intDigits.isEmpty then none
  else
    let cs2 := cs1.drop intDigits.length
    let afterFrac : Option (List Char) :=
      match cs2 with
      | '.' :: r =>
        let fd := r.takeWhile Char.isDigit
        if fd.isEmpty then none else some (r.drop fd.length)
      | _ => some cs2
    match afterFrac with
    | none => none
    | some cs3 =>
      match cs3 with
      | 'e' :: r | 'E' :: r =>
        let r2 := match r with
          | '+' :: r' => r'
          | '-' :: r' => r'
          | _ => r
        let ed := r2.takeWhile Char.isDigit
        if ed.isEmpty then none else some (r2.drop ed.length)
      | _ => some cs3

def stripLit : List Char → List Char → Option (List Char)
  | [], cs => some cs
  | l :: ls, c :: cs => if c = l then stripLit ls cs else none
  | _ :: _, [] => none

mutual

def jsonVal : Nat → List Char → Option (List Char)
  | 0, _ => none
  | fuel + 1, cs =>
    match cs with
    | [] => none
    | c :: rest =>
      if c = '"' then jsonStringRest rest
      else if c = lbraceChar then
        match skipWs rest with
        | d :: rest2 =>
          if d = rbraceChar then some rest2 else jsonMembers fuel (d :: rest2)
        | [] => none
      else if c = '[' then
        match skipWs rest with
        | d :: rest2 => if d = ']' then some rest2 else jsonElements fuel (d :: rest2)
        | [] => none
      else if c = 't' then stripLit "rue".toList rest
      else if c = 'f' then stripLit "alse".toList rest
      else if c = 'n' then stripLit "ull".toList rest
      else jsonNumber cs

def jsonMembers : Nat → List Char → Option (List Char)
  | 0, _ => none
  | fuel + 1, cs =>
    match skipWs cs with
    | '"' :: rest =>
      match jsonStringRest rest with
      | none => none
      | some afterKey =>
        match skipWs afterKey with
        | ':' :: afterColon =>
          match jsonVal fuel (skipWs afterColon) with
          | none => none
          | some afterVal =>
            match skipWs afterVal with
            | ',' :: more => jsonMembers fuel more
            | d :: more => if d = rbraceChar then some more else none
            | [] => none
        | _ => none
    | _ => none

def jsonElements : Nat → List Char → Option (List Char)
  | 0, _ => none
  | fuel + 1, cs =>
    match jsonVal fuel (skipWs cs) with
    | none => none
    | some afterVal =>
      match skipWs afterVal with
      | ',' :: more => jsonElements fuel more
      | ']' :: more => some more
      | _ => none

end

/-- Does `json.loads` accept the string? -/
def jsonOk (s : String) : Bool :=
  match jsonVal (2 * s.length + 4) (skipWs s.toList) with
  | some rest => (skipWs rest).isEmpty
  | none => false

/-! ### Validation (Issue.validate) -/
/-- `Status._VALID`. -/
def statusIsValid (s : String) : Bool :=
  s == "open" || s == "in_progress" || s == "blocked" || s == "deferred" ||
    s == "closed" || s == "tombstone" || s == "pinned" || s == "hooked"

/-- `IssueType._CORE`. -/
def issueTypeIsValid (t : String) : Bool :=
  t == "bug" || t == "feature" || t == "task" || t == "epic" || t == "chore"

/-- `Issue.validate`: first failing check's message, or `none`. -/
def validate (i : Issue) : Option String :=
  if i.title = "" then some "title is required"
  else if 500 < i.title.length then
    some ("title must be 500 characters or less (got " ++ toString i.title.length ++ ")")
  else if i.priority < 0 ∨ 4 < i.priority then
    some ("priority must be between 0 and 4 (got " ++ toString i.priority ++ ")")
  else if i.status ≠ "" ∧ ¬ statusIsValid i.status then
    some ("invalid status: " ++ i.status)
  else if i.issue_type ≠ "" ∧ ¬ issueTypeIsValid i.issue_type then
    some ("invalid issue type: " ++ i.issue_type)
  else if (match i.estimated_minutes with | some m => decide (m < 0) | none => false) = true then
    some "estimated_minutes cannot be negative"
  else if i.status = "closed" ∧ i.closed_at = none then
    some "closed issues must have closed_at timestamp"
  else if i.status ≠ "closed" ∧ i.status ≠ "tombstone" ∧ i.closed_at ≠ none then
    some "non-closed issues cannot have closed_at timestamp"
  else if i.status = "tombstone" ∧ i.deleted_at = none then
    some "tombstone issues must have deleted_at timestamp"
  else if i.status ≠ "tombstone" ∧ i.deleted_at ≠ none then
    some "non-tombstone issues cannot have deleted_at timestamp"
  else if i.metadata ≠ "" ∧ i.metadata ≠ "\x7b\x7d" ∧ ¬ jsonOk i.metadata then
    some "metadata must be valid JSON"
  else none

/-! ### Identifier hierarchy (src/beads/id_gen.py) -/
/-- Python's `s.count(".")` for the single-character needle. -/
def dotCount (s : String) : Nat := (s.toList.filter (fun c => c = '.')).length

/-- Split a character list on a separator character (the `"." `case of
Python's `str.split`): structural so the kernel can evaluate it. -/
def splitOnChar (sep : Char) : List Char → List (List Char)
  | [] => [[]]
  | c :: cs =>
    match splitOnChar sep cs with
    | h :: t => if c == sep then [] :: h :: t else (c :: h) :: t
    | [] => if c == sep then [[], []] else [[c]]

/-- Python's `str.isdigit` restricted to ASCII: nonempty and all digits. -/
def isDigitsPy (s : String) : Bool := !s.isEmpty && s.toList.all Char.isDigit

/-- `parse_hierarchical_id`: root id, parent id, depth. A non-digit
segment after the first makes the whole ID flat. -/
def parseHierarchicalId (issue_id : String) : String × String × Nat :=
  let parts := (splitOnChar '.' issue_id.toList).map String.mk
  if (parts.drop 1).all isDigitsPy then
    let depth := (parts.drop 1).length
    if depth = 0 then (issue_id, "", 0)
    else (parts.headD "", String.intercalate "." parts.dropLast, depth)
  else (issue_id, "", 0)

def maxHierarchyDepth : Nat := 3

/-- `check_hierarchy_depth`: error message when the parent is too deep.
The depth tested is the raw dot count of the parent ID. -/
def checkHierarchyDepth (parentId : String) (maxDepth : Nat) : Option String :=
  let m := if maxDepth < 1 then maxHierarchyDepth else maxDepth
  if m ≤ dotCount parentId then
    some ("maximum hierarchy depth (" ++ toString m ++ ") exceeded for parent " ++ parentId)
  else none

/-- `generate_child_id`. -/
def generateChildId (parentId : String) (childNumber : Nat) : String :=
  parentId ++ "." ++ toString childNumber

/-! ### Store state (src/beads/storage/sqlite_store.py)

The SQLite tables become lists; every mutator is a function from state
to state, threaded explicitly. Primary keys are not re-checked on
insert (the claims only create fresh ids); foreign keys appear where
they change control flow (`INSERT OR IGNORE` does not suppress
foreign-key violations, so `create_issue`'s guarded dependency insert
and the event inserts of mutators are modelled with explicit
existence checks). The `dirty_issues` table is a list ordered by
`marked_at`; upserting moves an id to the end. -/
structure StoreState where
  issues : List Issue := []
  deps : List Dep := []
  labelsTbl : List (String × String) := []
  commentsTbl : List CommentRec := []
  events : List EventRec := []
  dirty : List String := []
  childCounters : List (String × Nat) := []
deriving Repr, DecidableEq

def emptyStore : StoreState := {}

def idExists (issues : List Issue) (id : String) : Bool :=
  issues.any (fun i => i.id == id)

def pairPresent (deps : List Dep) (a b : String) : Bool :=
  deps.any (fun d => d.issue_id == a && d.depends_on_id == b)

/-- `mark_dirty`: upsert with a fresh `marked_at`, i.e. move to the end. -/
def markDirty (d : List String) (id : String) : List String :=
  d.filter (fun x => x != id) ++ [id]

def getDirtyIssues (s : StoreState) : List String := s.dirty

/-- `clear_dirty`: delete the given ids from the dirty table. -/
def clearDirty (s : StoreState) (ids : List String) : StoreState :=
  { s with dirty := s.dirty.filter (fun x => !(ids.contains x)) }

/-- `INSERT OR IGNORE INTO labels`. -/
def insertLabelIgnore (tbl : List (String × String)) (id lbl : String) :
    List (String × String) :=
  if tbl.contains (id, lbl) then tbl else tbl ++ [(id, lbl)]

/-- The guarded dependency insert inside `create_issue`: `OR IGNORE` on
the pair key, and a foreign-key failure is swallowed by the
`try/except IntegrityError`. -/
def insertDepCreate (issues : List Issue) (deps : List Dep) (d : Dep) : List Dep :=
  if pairPresent deps d.issue_id d.depends_on_id then deps
  else if idExists issues d.issue_id && idExists issues d.depends_on_id then deps ++ [d]
  else deps

def normalizeMeta (m : String) : String := if m = "" then "\x7b\x7d" else m

/-- The issues-table row written by `create_issue`: content hash
computed on the issue as given, then `metadata or "{}"` stored.
Relational collections live in their own tables, so the row itself
carries none. -/
def mkStored (i : Issue) : Issue :=
  { i with content_hash := computeContentHash i, metadata := normalizeMeta i.metadata,
           labels := [], dependencies := [], comments := [] }

/-- The issues-table CHECK constraints the `create_issue` INSERT must
satisfy (storage/schema.py): `length(title) <= 500`,
`priority >= 0 AND priority <= 4`, and `closed_at` set exactly on
`closed` rows with `tombstone` rows exempt. -/
def rowChecksOk (i : Issue) : Bool :=
  decide (i.title.length ≤ 500) && decide (0 ≤ i.priority) && decide (i.priority ≤ 4) &&
    ((i.status == "closed" && i.closed_at.isSome) ||
      i.status == "tombstone" ||
      (!(i.status == "closed" || i.status == "tombstone") && i.closed_at.isNone))

/-- The comments foreign key inside `create_issue`: each comment row
is inserted with issue id `comment.issue_id or issue.id`, which must
name an existing issues row (the freshly inserted one included).
Unlike the dependency inserts, this insert is not wrapped in a
`try/except`, so a violation raises. -/
def commentFkOk (issues : List Issue) (i : Issue) : Bool :=
  i.comments.all (fun c => idExists issues (if c.issue_id = "" then i.id else c.issue_id))

/-- The writes `create_issue` performs when every insert succeeds. -/
def insertIssueRow (s : StoreState) (i : Issue) (actor : String) (now : Nat) : StoreState :=
  let issues' := s.issues ++ [mkStored i]
  { s with
    issues := issues'
    labelsTbl := i.labels.foldl (fun acc l => insertLabelIgnore acc i.id l) s.labelsTbl
    deps := i.dependencies.foldl (fun acc d => insertDepCreate issues' acc d) s.deps
    commentsTbl := s.commentsTbl ++
      i.comments.map (fun c => { c with issue_id := if c.issue_id = "" then i.id else c.issue_id })
    events := s.events ++ [⟨i.id, "created", actor, none, none, none, now⟩]
    dirty := markDirty s.dirty i.id }

/-- `create_issue`: the unguarded inserts raise
`sqlite3.IntegrityError` on a duplicate primary key, a violated
issues-table CHECK constraint, or a broken comment foreign key, and
the transaction is never committed in that case; otherwise the row and
its satellite rows are written. -/
def createIssue (s : StoreState) (i : Issue) (actor : String) (now : Nat) :
    Except String StoreState :=
  if idExists s.issues i.id || !rowChecksOk i ||
      !commentFkOk (s.issues ++ [mkStored i]) i then
    Except.error "sqlite3.IntegrityError"
  else
    Except.ok (insertIssueRow s i actor now)

/-- Unwrap a successful store operation (used only to build concrete
example stores). -/
def okStore : Except String StoreState → StoreState
  | Except.ok st => st
  | Except.error _ => emptyStore

def getLabels (s : StoreState) (id : String) : List String :=
  List.insertionSort (fun a b => a ≤ b)
    ((s.labelsTbl.filter (fun p => p.1 == id)).map Prod.snd)

def getDependencyRecords (s : StoreState) (id : String) : List Dep :=
  s.deps.filter (fun d => d.issue_id == id)

def getComments (s : StoreState) (id : String) : List CommentRec :=
  List.insertionSort (fun a b => a.created_at ≤ b.created_at)
    (s.commentsTbl.filter (fun c => c.issue_id == id))

/-- `get_issue`: the row with labels, outgoing edges and comments attached. -/
def getIssue (s : StoreState) (id : String) : Option Issue :=
  (s.issues.find? (fun i => i.id == id)).map fun i =>
    { i with labels := getLabels s id, dependencies := getDependencyRecords s id,
             comments := getComments s id }

/-- The patch dictionary the importer passes to `update_issue`
(Phase 2). `assignee := none` models the Python `None` produced by
`incoming.assignee or None`; optional entries model keys only present
when the incoming value is truthy. -/
structure ImportPatch where
  title : String := ""
  description : String := ""
  design : String := ""
  acceptance_criteria : String := ""
  notes : String := ""
  status : String := "open"
  priority : Int := 2
  issue_type : String := "task"
  assignee : Option String := none
  closed_at : Option Nat := none
  close_reason : Option String := none
  pinned : Option Bool := none
  external_ref : Option String := none
deriving Repr, DecidableEq

/-- Apply the patch columns plus the unconditional `updated_at` bump;
`a` is the (non-`None`) assignee value. -/
def applyPatch (cur : Issue) (p : ImportPatch) (a : String) (now : Nat) : Issue :=
  { cur with
    title := p.title, description := p.description, design := p.design,
    acceptance_criteria := p.acceptance_criteria, notes := p.notes,
    status := p.status, priority := p.priority, issue_type := p.issue_type,
    assignee := a,
    closed_at := match p.closed_at with | some t => some t | none => cur.closed_at,
    close_reason := match p.close_reason with | some r => r | none => cur.close_reason,
    pinned := match p.pinned with | some b => b | none => cur.pinned,
    external_ref := match p.external_ref with | some r => some r | none => cur.external_ref,
    updated_at := now }

def replaceById (issues : List Issue) (id : String) (new : Issue) : List Issue :=
  issues.map (fun i => if i.id == id then new else i)

/-- `update_issue` for an importer patch. When the patch carries
`assignee = None`, the source's hash-recompute loop does
`setattr(current, "assignee", None)` and `compute_content_hash` then
calls `None.encode`, raising `AttributeError` before the SQL UPDATE
runs; that raise is the error case here. The recomputed hash is taken
over the patched row (the source computes it on the enriched
`get_issue` object, whose hashed fields coincide with the row's). The
source records a `status_changed` event whose old value is read back
from the already-patched object. -/
def updateIssue (s : StoreState) (issue_id : String) (p : ImportPatch)
    (actor : String) (now : Nat) : Except String StoreState :=
  match s.issues.find? (fun i => i.id == issue_id) with
  | none => Except.error ("Issue not found: " ++ issue_id)
  | some row =>
    match p.assignee with
    | none => Except.error "AttributeError: NoneType object has no attribute encode"
    | some a =>
      let patched := applyPatch row p a now
      let patched2 := { patched with content_hash := computeContentHash patched }
      Except.ok { s with
        issues := replaceById s.issues issue_id patched2
        events := s.events ++
          [⟨issue_id, "status_changed", actor, some patched.status, some p.status, none, now⟩]
        dirty := markDirty s.dirty issue_id }

/-- `close_issue`. (On a missing id the UPDATE hits no row and the
event insert would violate its foreign key; that error path is out of
scope, so the state is returned unchanged.) -/
def closeIssue (s : StoreState) (issue_id reason actor : String) (now : Nat) : StoreState :=
  match s.issues.find? (fun i => i.id == issue_id) with
  | none => s
  | some _ =>
    { s with
      issues := s.issues.map (fun i =>
        if i.id == issue_id then
          { i with status := "closed", closed_at := some now, close_reason := reason,
                   updated_at := now }
        else i)
      events := s.events ++ [⟨issue_id, "closed", actor, none, none, some reason, now⟩]
      dirty := markDirty s.dirty issue_id }

/-- `reopen_issue`. -/
def reopenIssue (s : StoreState) (issue_id actor : String) (now : Nat) : StoreState :=
  match s.issues.find? (fun i => i.id == issue_id) with
  | none => s
  | some _ =>
    { s with
      issues := s.issues.map (fun i =>
        if i.id == issue_id then
          { i with status := "open", closed_at := none, close_reason := "", updated_at := now }
        else i)
      events := s.events ++ [⟨issue_id, "reopened", actor, none, none, none, now⟩]
      dirty := markDirty s.dirty issue_id }

/-- `delete_issue`: a bare `DELETE FROM issues`; every dependent table
(edges on either endpoint, labels, comments, events, dirty markers,
export hashes, child counters) goes away through `ON DELETE CASCADE`.
No event is recorded and nothing is marked dirty. -/
def deleteIssue (s : StoreState) (issue_id : String) : StoreState :=
  { s with
    issues := s.issues.filter (fun i => !(i.id == issue_id))
    deps := s.deps.filter (fun d => !(d.issue_id == issue_id || d.depends_on_id == issue_id))
    labelsTbl := s.labelsTbl.filter (fun p => !(p.1 == issue_id))
    commentsTbl := s.commentsTbl.filter (fun c => !(c.issue_id == issue_id))
    events := s.events.filter (fun e => !(e.issue_id == issue_id))
    dirty := s.dirty.filter (fun x => !(x == issue_id))
    childCounters := s.childCounters.filter (fun p => !(p.1 == issue_id)) }

/-- `add_label`. -/
def addLabel (s : StoreState) (issue_id lbl actor : String) (now : Nat) : StoreState :=
  match s.issues.find? (fun i => i.id == issue_id) with
  | none => s
  | some _ =>
    { s with
      labelsTbl := insertLabelIgnore s.labelsTbl issue_id lbl
      events := s.events ++ [⟨issue_id, "label_added", actor, none, some lbl, none, now⟩]
      dirty := markDirty s.dirty issue_id }

/-- `remove_label`. -/
def removeLabel (s : StoreState) (issue_id lbl actor : String) (now : Nat) : StoreState :=
  match s.issues.find? (fun i => i.id == issue_id) with
  | none => s
  | some _ =>
    { s with
      labelsTbl := s.labelsTbl.filter (fun p => !(p.1 == issue_id && p.2 == lbl))
      events := s.events ++ [⟨issue_id, "label_removed", actor, some lbl, none, none, now⟩]
      dirty := markDirty s.dirty issue_id }

/-- `add_comment`. -/
def addComment (s : StoreState) (issue_id author text : String) (now : Nat) : StoreState :=
  match s.issues.find? (fun i => i.id == issue_id) with
  | none => s
  | some _ =>
    { s with
      commentsTbl := s.commentsTbl ++ [⟨0, issue_id, author, text, now⟩]
      events := s.events ++ [⟨issue_id, "commented", author, none, some text, none, now⟩]
      dirty := markDirty s.dirty issue_id }

/-! ### Cycle oracle (has_cycle / add_dependency) -/
/-- Targets of outgoing edges of any type from `x`. -/
def succs (deps : List Dep) (x : String) : List String :=
  (deps.filter (fun d => d.issue_id == x)).map (fun d => d.depends_on_id)

def expandFrontier (deps : List Dep) (r : List String) : List String :=
  (r.map (succs deps)).flatten

/-- Ids reachable from `b` by walks of length at most `n` (with
multiplicity; the recursive CTE's `UNION ALL` also enumerates walks).
Level `n + 1` adds one more edge step to everything collected so far. -/
def reachList (deps : List Dep) (b : String) : Nat → List String
  | 0 => [b]
  | n + 1 => reachList deps b n ++ expandFrontier deps (reachList deps b n)

/-- `has_cycle`: self-edge, or `issue_id` reachable from
`depends_on_id` within the CTE's depth bound of 100. -/
def hasCycle (s : StoreState) (issue_id depends_on_id : String) : Bool :=
  if issue_id == depends_on_id then true
  else (reachList s.deps depends_on_id 100).contains issue_id

/-- `add_dependency`: the error raised (if any) paired with the
resulting state; the raise happens before any insert, so the state
component is the input state on error. -/
def addDependency (s : StoreState) (dep : Dep) (actor : String) (now : Nat) :
    Option String × StoreState :=
  if hasCycle s dep.issue_id dep.depends_on_id then
    (some ("Adding dependency " ++ dep.issue_id ++ " → " ++ dep.depends_on_id ++
      " would create a cycle"), s)
  else if !(idExists s.issues dep.issue_id && idExists s.issues dep.depends_on_id) then
    (some "FOREIGN KEY constraint failed", s)
  else
    (none,
      { s with
        deps :=
          if pairPresent s.deps dep.issue_id dep.depends_on_id then s.deps
          else s.deps ++
            [{ dep with created_by := if dep.created_by = "" then actor else dep.created_by }]
        events := s.events ++
          [⟨dep.issue_id, "dependency_added", actor, none, some dep.depends_on_id, none, now⟩]
        dirty := markDirty (markDirty s.dirty dep.issue_id) dep.depends_on_id })

/-- `remove_dependency`. -/
def removeDependency (s : StoreState) (issue_id depends_on_id actor : String)
    (now : Nat) : StoreState :=
  match s.issues.find? (fun i => i.id == issue_id) with
  | none => s
  | some _ =>
    { s with
      deps := s.deps.filter
        (fun d => !(d.issue_id == issue_id && d.depends_on_id == depends_on_id))
      events := s.events ++
        [⟨issue_id, "dependency_removed", actor, some depends_on_id, none, none, now⟩]
      dirty := markDirty (markDirty s.dirty issue_id) depends_on_id }

/-! ### Ready work (get_ready_work) -/
/-- The `IN ('blocks', 'parent-child', 'conditional-blocks', 'waits-for')` test. -/
def blockingTypeB (t : String) : Bool :=
  t == "blocks" || t == "parent-child" || t == "conditional-blocks" || t == "waits-for"

/-- The `IN ('open', 'in_progress', 'blocked', 'deferred', 'hooked')` test. -/
def blockedStatusB (st : String) : Bool :=
  st == "open" || st == "in_progress" || st == "blocked" || st == "deferred" ||
    st == "hooked"

/-- The `EXISTS` subquery: an outgoing blocking edge joined to a
blocker row whose status is unresolved. -/
def hasOpenBlocker (s : StoreState) (i : Issue) : Bool :=
  s.deps.any fun d =>
    d.issue_id == i.id && blockingTypeB d.type &&
      s.issues.any (fun b => b.id == d.depends_on_id && blockedStatusB b.status)

/-- The row filter of `get_ready_work` (no per-call filter). -/
def isReady (s : StoreState) (now : Nat) (i : Issue) : Bool :=
  i.status == "open" && !i.ephemeral && !i.pinned &&
    (match i.defer_until with | none => true | some t => decide (t ≤ now)) &&
    !hasOpenBlocker s i

/-- `ORDER BY i.priority ASC, i.created_at ASC`. -/
def readyLe (a b : Issue) : Prop :=
  a.priority < b.priority ∨ (a.priority = b.priority ∧ a.created_at ≤ b.created_at)

instance : DecidableRel readyLe := fun a b => by
  unfold readyLe; infer_instance

/-- `get_ready_work` with no per-call filter: filter, then sort by
priority ascending and created time ascending. -/
def getReadyWork (s : StoreState) (now : Nat) : List Issue :=
  List.insertionSort readyLe (s.issues.filter (isReady s now))

/-! ### Importer (src/beads/importer.py) -/
/-- One parsed JSONL record: an issue or a deletion marker. -/
inductive JRec where
  | issue (i : Issue)
  | deletion (id : String)
deriving Repr, DecidableEq

structure ImportResult where
  created : Nat := 0
  updated : Nat := 0
  unchanged : Nat := 0
  skipped : Nat := 0
  deleted : Nat := 0
deriving Repr, DecidableEq

def deletionIds (recs : List JRec) : List String :=
  recs.filterMap fun r => match r with | .deletion id => some id | _ => none

def issueRecs (recs : List JRec) : List Issue :=
  recs.filterMap fun r => match r with | .issue i => some i | _ => none

/-- The deletion loop: `get_issue` then `delete_issue` per marker id. -/
def processDeletions (s : StoreState) (ids : List String) : Nat × StoreState :=
  ids.foldl
    (fun acc id =>
      if (acc.2.issues.find? (fun i => i.id == id)).isSome then
        (acc.1 + 1, deleteIssue acc.2 id)
      else acc)
    (0, s)

/-- Pre-loop pass 1: refresh the content hash. -/
def withHash (i : Issue) : Issue := { i with content_hash := computeContentHash i }

/-- Does the character list start with the given needle? -/
def startsWithChars : List Char → List Char → Bool
  | _, [] => true
  | [], _ :: _ => false
  | c :: cs, n :: ns => c == n && startsWithChars cs ns

def containsSubAux (needle : List Char) : List Char → Bool
  | [] => needle.isEmpty
  | c :: cs => startsWithChars (c :: cs) needle || containsSubAux needle cs

/-- Python's `needle in haystack` substring test. -/
def containsSub (hay needle : String) : Bool :=
  needle.isEmpty || containsSubAux needle.toList hay.toList

/-- Pre-loop pass 2: wisp auto-classification. -/
def wisped (i : Issue) : Issue :=
  if containsSub i.id "-wisp-" && !i.ephemeral then { i with ephemeral := true } else i

/-- `search_issues("", IssueFilter(include_tombstones=True))`: every
row, `ORDER BY created_at DESC`. -/
def searchAllIssues (s : StoreState) : List Issue :=
  List.insertionSort (fun a b => b.created_at ≤ a.created_at) s.issues

/-- A Python dict built by one pass of assignments keyed by `f`:
lookup returns the last assignment, i.e. the last matching element. -/
def dictLookup (l : List Issue) (f : Issue → String) (v : String) : Option Issue :=
  l.reverse.find? (fun i => f i == v)

/-- `db_by_id` over the snapshot. -/
def dbIdLookup (snap : List Issue) (id : String) : Option Issue :=
  dictLookup snap (fun i => i.id) id

/-- `db_by_hash` over the snapshot; only non-empty hashes were keyed. -/
def dbHashLookup (snap : List Issue) (h : String) : Option Issue :=
  if h = "" then none else dictLookup snap (fun i => i.content_hash) h

/-- Loop accumulator: tally, store, `seen_hashes`, `seen_ids`. -/
structure LoopAcc where
  res : ImportResult
  store : StoreState
  seenH : List String
  seenI : List String

/-- The Phase 2 patch dictionary built from an incoming issue. -/
def patchOf (inc : Issue) : ImportPatch :=
  { title := inc.title, description := inc.description, design := inc.design,
    acceptance_criteria := inc.acceptance_criteria, notes := inc.notes,
    status := inc.status, priority := inc.priority, issue_type := inc.issue_type,
    assignee := if inc.assignee = "" then none else some inc.assignee,
    closed_at := inc.closed_at,
    close_reason := if inc.close_reason = "" then none else some inc.close_reason,
    pinned := if inc.pinned then some true else none,
    external_ref := match inc.external_ref with
      | some r => if r = "" then none else some r
      | none => none }

/-- The hash the loop uses for an incoming issue. -/
def hashOfPre (inc : Issue) : String :=
  if inc.content_hash = "" then computeContentHash inc else inc.content_hash

/-- The reconciliation loop of `import_jsonl`, with the two dict
snapshots fixed before the loop (mutations inside the loop do not
refresh them, matching the source). -/
def importLoop (snap : List Issue) (now : Nat) :
    List Issue → LoopAcc → Except String LoopAcc
  | [], acc => Except.ok acc
  | inc :: rest, acc =>
    let h := hashOfPre inc
    if acc.seenH.contains h then
      importLoop snap now rest
        ⟨{ acc.res with skipped := acc.res.skipped + 1 }, acc.store, acc.seenH, acc.seenI⟩
    else
      let seenH' := h :: acc.seenH
      if acc.seenI.contains inc.id then
        importLoop snap now rest
          ⟨{ acc.res with skipped := acc.res.skipped + 1 }, acc.store, seenH', acc.seenI⟩
      else
        let seenI' := inc.id :: acc.seenI
        let existingById := dbIdLookup snap inc.id
        if (match existingById with
            | some e => e.status == "tombstone"
            | none => false) then
          importLoop snap now rest
            ⟨{ acc.res with skipped := acc.res.skipped + 1 }, acc.store, seenH', seenI'⟩
        else
          match dbHashLookup snap h with
          | some eh =>
            if eh.id == inc.id then
              importLoop snap now rest
                ⟨{ acc.res with unchanged := acc.res.unchanged + 1 }, acc.store, seenH', seenI'⟩
            else
              importLoop snap now rest
                ⟨{ acc.res with skipped := acc.res.skipped + 1 }, acc.store, seenH', seenI'⟩
          | none =>
            match existingById with
            | some e =>
              if inc.updated_at ≤ e.updated_at then
                importLoop snap now rest
                  ⟨{ acc.res with unchanged := acc.res.unchanged + 1 }, acc.store, seenH', seenI'⟩
              else
                match updateIssue acc.store inc.id (patchOf inc) "import" now with
                | Except.error e => Except.error e
                | Except.ok s' =>
                  importLoop snap now rest
                    ⟨{ acc.res with updated := acc.res.updated + 1 }, s', seenH', seenI'⟩
            | none =>
              match createIssue acc.store inc "import" now with
              | Except.error e => Except.error e
              | Except.ok s' =>
                importLoop snap now rest
                  ⟨{ acc.res with created := acc.res.created + 1 }, s', seenH', seenI'⟩

/-- `import_jsonl` over already-parsed records: deletions first, then
hash refresh and wisp classification, then the reconciliation loop
against dict snapshots of the post-deletion store. -/
def importJsonl (s : StoreState) (recs : List JRec) (now : Nat) :
    Except String (ImportResult × StoreState) :=
  let del := processDeletions s (deletionIds recs)
  let pre := (issueRecs recs).map (fun i => wisped (withHash i))
  let snap := searchAllIssues del.2
  match importLoop snap now pre ⟨{ deleted := del.1 }, del.2, [], []⟩ with
  | Except.error e => Except.error e
  | Except.ok acc => Except.ok (acc.res, acc.store)

/-! ### Exporter (src/beads/export.py)

The log file holds a sequence of serialized issues; its payload is
modelled as the list of issues written. `writeOk` models whether the
file-system writes succeed. -/
structure LogFS where
  dest : Option (List Issue) := none
  temp : Option (List Issue) := none
deriving Repr, DecidableEq

/-- The enriched, ephemeral-free sequence `flush_to_jsonl` writes. -/
def exportList (s : StoreState) : List Issue :=
  ((searchAllIssues s).filter (fun i => !i.ephemeral)).filterMap
    (fun i => getIssue s i.id)

/-- `flush_to_jsonl`: on success, rename the temp file over the
destination and clear the whole dirty set; on failure, remove the temp
file and propagate the error, leaving the destination as it was. -/
def flushToJsonl (s : StoreState) (fs : LogFS) (writeOk : Bool) :
    Option String × StoreState × LogFS :=
  if writeOk then
    let s' := clearDirty s (getDirtyIssues s)
    (none, s', { dest := some (exportList s), temp := none })
  else
    (some "write failed", s, { fs with temp := none })

def c1left : Issue := { id := "w-1", title := "same title", description := "d" }

def c1right : Issue :=
  { id := "w-2", title := "same title", description := "d", ephemeral := true,
    updated_at := 9 }

def c7closed : Issue := { title := "a", status := "closed", closed_at := some 1 }

/-! ### Spec-side predicates for ready work (§4.3) -/
/-- The blocking edge types, as the spec words them. -/
def BlockingType (t : String) : Prop :=
  t = "blocks" ∨ t = "parent-child" ∨ t = "conditional-blocks" ∨ t = "waits-for"

/-- The unresolved blocker statuses, as the spec words them. -/
def UnresolvedStatus (st : String) : Prop :=
  st = "open" ∨ st = "in_progress" ∨ st = "blocked" ∨ st = "deferred" ∨ st = "hooked"

/-- Readiness as the claim words it: open, not ephemeral, not pinned,
not deferred past `now`, and no outgoing blocking edge to an
unresolved blocker. -/
def ReadySpec (s : StoreState) (now : Nat) (i : Issue) : Prop :=
  i.status = "open" ∧ i.ephemeral = false ∧ i.pinned = false ∧
  (i.defer_until = none ∨ ∃ t, i.defer_until = some t ∧ t ≤ now) ∧
  ¬ ∃ d, d ∈ s.deps ∧ d.issue_id = i.id ∧ BlockingType d.type ∧
      ∃ b, b ∈ s.issues ∧ b.id = d.depends_on_id ∧ UnresolvedStatus b.status

instance : IsTotal Issue readyLe :=
  ⟨fun a b => by unfold readyLe; omega⟩

instance : IsTrans Issue readyLe :=
  ⟨fun a b c hab hbc => by unfold readyLe at *; omega⟩

/-! ### Spec-side reachability for the cycle oracle -/
/-- One edge step (any edge type). -/
def EdgeStep (deps : List Dep) (y x : String) : Prop :=
  ∃ d, d ∈ deps ∧ d.issue_id = y ∧ d.depends_on_id = x

/-- `ReachN deps b n x`: `x` ends some walk from `b` along outgoing
edges of length at most `n`. -/
def ReachN (deps : List Dep) (b : String) : Nat → String → Prop
  | 0, x => x = b
  | n + 1, x => ReachN deps b n x ∨ ∃ y, ReachN deps b n y ∧ EdgeStep deps y x

def c5store : StoreState :=
  (addDependency
    (okStore (createIssue (okStore (createIssue emptyStore { id := "A", title := "a" } "u" 0))
      { id := "B", title := "b" } "u" 1))
    ⟨"B", "A", "blocks", 2, "u", "", ""⟩ "u" 2).2

def c5dep : Dep := ⟨"A", "B", "blocks", 3, "u", "", ""⟩

def c9a : Issue := { id := "m-1", title := "one" }

def c9b : Issue := { id := "m-2", title := "two" }

def c9s : StoreState :=
  okStore (createIssue (okStore (createIssue emptyStore c9a "u" 0)) c9b "u" 1)

def c9c : Issue := { id := "m-3", title := "three" }

def c9createState : StoreState := okStore (createIssue c9s c9c "u" 2)

def c9delBase : StoreState :=
  okStore (createIssue emptyStore { id := "d-1", title := "x" } "al" 0)

def c9patch : ImportPatch := { title := "one b", assignee := some "z" }

def c9updState : StoreState :=
  match updateIssue c9s "m-1" c9patch "import" 5 with
  | Except.ok st => st
  | Except.error _ => emptyStore

def c9dep : Dep := ⟨"m-2", "m-1", "blocks", 6, "u", "", ""⟩

def c9depState : StoreState := (addDependency c9s c9dep "u" 6).2

def c10ex : Issue := { id := "c-1", title := "x" }

def c10state : StoreState := okStore (createIssue emptyStore c10ex "u" 0)

/-! ### C3: importer idempotence -/
def preOf (x : Issue) : Issue := wisped (withHash x)

/-- The store produced by importing a list of fresh issue records into
an empty store. -/
def createdStore (xs : List Issue) (t : Nat) : StoreState :=
  (xs.map (fun i => wisped (withHash i))).foldl
    (fun st p => insertIssueRow st p "import" t) emptyStore

def c3x1 : Issue := { id := "i-1", title := "alpha" }

def c3x2 : Issue := { id := "i-2", title := "beta" }

def c3dup : Issue := { id := "t-1", title := "a" }

/-- The second-call tally when the same two-line batch (the same
record twice) is imported twice. -/
def c3dupSecond : Option ImportResult :=
  match importJsonl emptyStore [JRec.issue c3dup, JRec.issue c3dup] 0 with
  | Except.ok (_, st) =>
    match importJsonl st [JRec.issue c3dup, JRec.issue c3dup] 1 with
    | Except.ok (r, _) => some r
    | Except.error _ => none
  | Except.error _ => none

/-! ### C4: the newer-wins update path -/
def c4old : Issue := { id := "p-1", title := "Old", updated_at := 0 }

def c4store : StoreState := okStore (createIssue emptyStore c4old "alice" 0)

def c4incoming : Issue := { id := "p-1", title := "New", updated_at := 5 }

def c4incomingAssigned : Issue :=
  { id := "p-1", title := "New", updated_at := 5, assignee := "bob" }

def c4okRes : Option ImportResult :=
  match importJsonl c4store [JRec.issue c4incomingAssigned] 6 with
  | Except.ok (r, _) => some r
  | Except.error _ => none

theorem sha256hex_testvector :
    sha256hex (strBytes "abc") =
      "ba7816bf8f01cfea414140de5dae2223b00361a396177a9cb410ff61f20015ad" := by
  decide

theorem hexDigit_mem (n : Nat) : hexDigit (n % 16) ∈ hexAlphabet := by
  have h : n % 16 < 16 := Nat.mod_lt _ (by omega)
  interval_cases h' : n % 16 <;> decide

theorem length_flatten_hexByte (l : List Nat) :
    ((l.map hexByte).flatten).length = 2 * l.length := by
  induction l with
  | nil => rfl
  | cons b t ih => simp [hexByte, ih]; omega

theorem digestBytes_length (st : H8) : (digestBytes st).length = 32 := rfl

theorem sha256hex_length (msg : List Nat) : (sha256hex msg).length = 64 := by
  show ((((digestBytes (sha256 msg)).map hexByte).flatten)).length = 64
  rw [length_flatten_hexByte, digestBytes_length]

theorem sha256hex_ne_empty (msg : List Nat) : sha256hex msg ≠ "" := by
  intro h
  have := sha256hex_length msg
  rw [h] at this
  exact absurd this (by decide)

theorem mem_hexByte_mem_alphabet (b : Nat) (c : Char) (hc : c ∈ hexByte b) :
    c ∈ hexAlphabet := by
  simp only [hexByte, List.mem_cons, List.not_mem_nil, or_false] at hc
  rcases hc with h | h
  · rw [h]; simpa using hexDigit_mem (b / 16)
  · rw [h]; exact hexDigit_mem b

theorem sha256hex_chars (msg : List Nat) (c : Char)
    (hc : c ∈ (sha256hex msg).toList) : c ∈ hexAlphabet := by
  have hc' : c ∈ ((digestBytes (sha256 msg)).map hexByte).flatten := hc
  rw [List.mem_flatten] at hc'
  obtain ⟨l, hl, hcl⟩ := hc'
  rw [List.mem_map] at hl
  obtain ⟨b, _, rfl⟩ := hl
  exact mem_hexByte_mem_alphabet b c hcl

/-! ## Claims -/
/-- C1: two issues agreeing on every field of the §4.2 content-hash
field order get the same `compute_content_hash`, and that value is the
64-character lowercase hex SHA-256 digest of the tagged,
null-terminated concatenation of those fields in that exact order
(`computeContentHash` is by definition `sha256hex` of
`contentHashBytes`, whose writers follow §4.2's primitives). -/
theorem content_hash_field_order_deterministic (i j : Issue)
    (h1 : i.title = j.title) (h2 : i.description = j.description)
    (h3 : i.design = j.design) (h4 : i.acceptance_criteria = j.acceptance_criteria)
    (h5 : i.notes = j.notes) (h6 : i.spec_id = j.spec_id)
    (h7 : i.status = j.status) (h8 : i.priority = j.priority)
    (h9 : i.issue_type = j.issue_type) (h10 : i.assignee = j.assignee)
    (h11 : i.owner = j.owner) (h12 : i.created_by = j.created_by)
    (h13 : i.external_ref = j.external_ref) (h14 : i.source_system = j.source_system)
    (h15 : i.pinned = j.pinned) (h16 : i.metadata = j.metadata)
    (h17 : i.is_template = j.is_template) (h18 : i.bonded_from = j.bonded_from)
    (h19 : i.creator = j.creator) (h20 : i.validations = j.validations)
    (h21 : i.quality_score = j.quality_score) (h22 : i.crystallizes = j.crystallizes)
    (h23 : i.await_type = j.await_type) (h24 : i.await_id = j.await_id)
    (h25 : i.timeout = j.timeout) (h26 : i.waiters = j.waiters)
    (h27 : i.holder = j.holder) (h28 : i.hook_bead = j.hook_bead)
    (h29 : i.role_bead = j.role_bead) (h30 : i.agent_state = j.agent_state)
    (h31 : i.role_type = j.role_type) (h32 : i.rig = j.rig)
    (h33 : i.mol_type = j.mol_type) (h34 : i.work_type = j.work_type)
    (h35 : i.event_kind = j.event_kind) (h36 : i.actor = j.actor)
    (h37 : i.target = j.target) (h38 : i.payload = j.payload) :
    computeContentHash i = computeContentHash j ∧
    computeContentHash i = sha256hex (contentHashBytes i) ∧
    (computeContentHash i).length = 64 ∧
    ∀ c ∈ (computeContentHash i).toList, c ∈ hexAlphabet := by
  refine ⟨?_, rfl, sha256hex_length _, fun c hc => sha256hex_chars _ c hc⟩
  unfold computeContentHash contentHashBytes
  rw [h1, h2, h3, h4, h5, h6, h7, h8, h9, h10, h11, h12, h13, h14, h15, h16,
    h17, h18, h19, h20, h21, h22, h23, h24, h25, h26, h27, h28, h29, h30, h31,
    h32, h33, h34, h35, h36, h37, h38]

theorem content_hash_field_order_deterministic_witness :
    computeContentHash c1left = computeContentHash c1right ∧
    computeContentHash c1left = sha256hex (contentHashBytes c1left) ∧
    (computeContentHash c1left).length = 64 ∧
    ∀ c ∈ (computeContentHash c1left).toList, c ∈ hexAlphabet :=
  content_hash_field_order_deterministic c1left c1right rfl rfl rfl rfl rfl rfl
    rfl rfl rfl rfl rfl rfl rfl rfl rfl rfl rfl rfl rfl rfl rfl rfl rfl rfl rfl
    rfl rfl rfl rfl rfl rfl rfl rfl rfl rfl rfl rfl rfl

/-- C7 (counterexample): a tombstone issue with `closed_at` set passes
validation (both `Issue.validate` and the schema CHECK accept it), so
`closed_at` being set does not imply `status = closed`. -/
theorem closed_iff_closed_at_counterexample :
    validate { title := "a", status := "tombstone", deleted_at := some 3,
               closed_at := some 2 } = none ∧
    ({ title := "a", status := "tombstone", deleted_at := some 3,
       closed_at := some 2 } : Issue).closed_at ≠ none ∧
    ({ title := "a", status := "tombstone", deleted_at := some 3,
       closed_at := some 2 } : Issue).status ≠ "closed" := by
  refine ⟨by decide, by decide, by decide⟩

set_option maxHeartbeats 2000000 in
/-- C7 (amended): for every issue accepted by `Issue.validate`,
`status = closed` implies `closed_at` is set, and `closed_at` set
implies `status ∈ { closed, tombstone }` (the tombstone case is the
one the original biconditional missed). -/
theorem closed_iff_closed_at_amended (i : Issue) (h : validate i = none) :
    (i.status = "closed" → i.closed_at ≠ none) ∧
    (i.closed_at ≠ none → i.status = "closed" ∨ i.status = "tombstone") := by
  unfold validate at h
  split_ifs at h with a1 a2 a3 a4 a5 a6 a7 a8 a9 a10 a11
  constructor
  · intro hc hnone
    exact a7 ⟨hc, hnone⟩
  · intro hne
    by_contra hq
    push_neg at hq
    exact a8 ⟨hq.1, hq.2, hne⟩

theorem closed_iff_closed_at_amended_witness :
    (c7closed.status = "closed" → c7closed.closed_at ≠ none) ∧
    (c7closed.closed_at ≠ none →
      c7closed.status = "closed" ∨ c7closed.status = "tombstone") :=
  closed_iff_closed_at_amended c7closed (by decide)

/-- C8 (counterexample): the creation-time depth gate
`check_hierarchy_depth` counts raw dots, not digit segments. Creating
a child of `"p-abc.1.2"` (which would be `"p-abc.1.2.3"` for child
number 3) is allowed, not rejected — the gate returns no error — even
though the claim says it is rejected; and a parent like `"a.b.c.d"`
whose digit-segment depth is 0 is rejected, so the gate does not fire
exactly at digit-segment depth 3. -/
theorem hierarchy_depth_check_counterexample :
    checkHierarchyDepth "p-abc.1.2" 0 = none ∧
    (parseHierarchicalId "p-abc.1.2").2.2 = 2 ∧
    generateChildId "p-abc.1.2" 3 = "p-abc.1.2.3" ∧
    (checkHierarchyDepth "a.b.c.d" 0).isSome = true ∧
    (parseHierarchicalId "a.b.c.d").2.2 = 0 := by
  refine ⟨by decide, by decide, rfl, by decide, by decide⟩

/-- C8 (amended): `check_hierarchy_depth` (with the default maximum)
rejects child creation exactly when the parent ID contains at least 3
dots — the raw dot count, regardless of whether the dotted segments
are digits. In particular a child of `"p-abc.1.2"` is allowed and a
child of `"p-abc.1.2.3"` is rejected. -/
theorem hierarchy_depth_check_amended (p : String) :
    (checkHierarchyDepth p 0 = none ↔ dotCount p < 3) ∧
    checkHierarchyDepth "p-abc.1.2" 0 = none ∧
    (checkHierarchyDepth "p-abc.1.2.3" 0).isSome = true := by
  refine ⟨?_, by decide, by decide⟩
  unfold checkHierarchyDepth maxHierarchyDepth
  constructor
  · intro h
    by_contra hlt
    simp only [if_pos (by decide : (0 : Nat) < 1)] at h
    rw [if_pos (by omega)] at h
    exact absurd h (by simp)
  · intro h
    simp only [if_pos (by decide : (0 : Nat) < 1)]
    rw [if_neg (by omega)]

theorem blockingTypeB_iff (t : String) : blockingTypeB t = true ↔ BlockingType t := by
  unfold blockingTypeB BlockingType
  simp only [Bool.or_eq_true, beq_iff_eq]
  tauto

theorem blockedStatusB_iff (st : String) :
    blockedStatusB st = true ↔ UnresolvedStatus st := by
  unfold blockedStatusB UnresolvedStatus
  simp only [Bool.or_eq_true, beq_iff_eq]
  tauto

theorem hasOpenBlocker_iff (s : StoreState) (i : Issue) :
    hasOpenBlocker s i = true ↔
      ∃ d, d ∈ s.deps ∧ d.issue_id = i.id ∧ BlockingType d.type ∧
        ∃ b, b ∈ s.issues ∧ b.id = d.depends_on_id ∧ UnresolvedStatus b.status := by
  unfold hasOpenBlocker
  simp only [List.any_eq_true, Bool.and_eq_true, beq_iff_eq, blockingTypeB_iff,
    blockedStatusB_iff]
  constructor
  · rintro ⟨d, hd, ⟨hid, hty⟩, b, hb, hbid, hst⟩
    exact ⟨d, hd, hid, hty, b, hb, hbid, hst⟩
  · rintro ⟨d, hd, hid, hty, b, hb, hbid, hst⟩
    exact ⟨d, hd, ⟨hid, hty⟩, b, hb, hbid, hst⟩

theorem isReady_iff_ReadySpec (s : StoreState) (now : Nat) (i : Issue) :
    isReady s now i = true ↔ ReadySpec s now i := by
  have hb : (!hasOpenBlocker s i) = true ↔
      ¬ ∃ d, d ∈ s.deps ∧ d.issue_id = i.id ∧ BlockingType d.type ∧
        ∃ b, b ∈ s.issues ∧ b.id = d.depends_on_id ∧ UnresolvedStatus b.status := by
    rw [Bool.not_eq_true', ← hasOpenBlocker_iff]
    simp
  unfold isReady ReadySpec
  cases hdef : i.defer_until with
  | none =>
    simp only [Bool.and_eq_true, Bool.not_eq_true', beq_iff_eq, hb,
      Bool.not_eq_true]
    constructor
    · rintro ⟨⟨⟨⟨h1, h2⟩, h3⟩, _⟩, h5⟩
      exact ⟨h1, h2, h3, Or.inl (by trivial), h5⟩
    · rintro ⟨h1, h2, h3, _, h5⟩
      exact ⟨⟨⟨⟨h1, h2⟩, h3⟩, by trivial⟩, h5⟩
  | some t =>
    simp only [Bool.and_eq_true, Bool.not_eq_true', beq_iff_eq, hb,
      Bool.not_eq_true, decide_eq_true_eq]
    constructor
    · rintro ⟨⟨⟨⟨h1, h2⟩, h3⟩, h4⟩, h5⟩
      exact ⟨h1, h2, h3, Or.inr ⟨t, rfl, h4⟩, h5⟩
    · rintro ⟨h1, h2, h3, h4, h5⟩
      have ht : t ≤ now := by
        rcases h4 with hnone | ⟨t', ht', hle⟩
        · exact absurd hnone (by simp)
        · rw [Option.some.injEq] at ht'
          rw [ht']
          exact hle
      exact ⟨⟨⟨⟨h1, h2⟩, h3⟩, ht⟩, h5⟩

/-- C2: an issue is returned by `get_ready_work` (no per-call filter)
iff it is a stored issue that is open, non-ephemeral, non-pinned, not
deferred past `now`, and has no outgoing blocking-type edge to a
blocker with status in ⟨open, in_progress, blocked, deferred, hooked⟩;
the returned list is ordered by priority ascending then created_at
ascending. -/
theorem ready_work_characterization (s : StoreState) (now : Nat) :
    (∀ i, i ∈ getReadyWork s now ↔ i ∈ s.issues ∧ ReadySpec s now i) ∧
    List.Sorted readyLe (getReadyWork s now) := by
  constructor
  · intro i
    rw [getReadyWork, List.mem_insertionSort, List.mem_filter, isReady_iff_ReadySpec]
  · exact List.sorted_insertionSort readyLe _

theorem mem_succs (deps : List Dep) (y x : String) :
    x ∈ succs deps y ↔ EdgeStep deps y x := by
  unfold succs EdgeStep
  simp only [List.mem_map, List.mem_filter, beq_iff_eq]
  constructor
  · rintro ⟨d, ⟨hd, hy⟩, hx⟩
    exact ⟨d, hd, hy, hx⟩
  · rintro ⟨d, hd, hy, hx⟩
    exact ⟨d, ⟨hd, hy⟩, hx⟩

theorem mem_reachList (deps : List Dep) (b : String) :
    ∀ n x, x ∈ reachList deps b n ↔ ReachN deps b n x := by
  intro n
  induction n with
  | zero =>
    intro x
    unfold reachList ReachN
    simp
  | succ n ih =>
    intro x
    show x ∈ reachList deps b n ++ expandFrontier deps (reachList deps b n) ↔ _
    rw [List.mem_append, ih]
    show _ ∨ _ ↔ ReachN deps b n x ∨ ∃ y, ReachN deps b n y ∧ EdgeStep deps y x
    refine or_congr Iff.rfl ?_
    unfold expandFrontier
    rw [List.mem_flatten]
    constructor
    · rintro ⟨l, hl, hx⟩
      rw [List.mem_map] at hl
      obtain ⟨y, hy, rfl⟩ := hl
      exact ⟨y, (ih y).mp hy, (mem_succs deps y x).mp hx⟩
    · rintro ⟨y, hy, hstep⟩
      refine ⟨succs deps y, ?_, (mem_succs deps y x).mpr hstep⟩
      rw [List.mem_map]
      exact ⟨y, (ih y).mpr hy, rfl⟩

/-- C5: `has_cycle(a, b)` is true when `a = b`, and otherwise exactly
when `a` is reachable from `b` along outgoing edges of any type by a
walk of length at most 100; `add_dependency` errors out when the
oracle fires, leaving the store (in particular its edge set)
unchanged. -/
theorem cycle_oracle_characterization (s : StoreState) (a b : String) :
    (a = b → hasCycle s a b = true) ∧
    (a ≠ b → (hasCycle s a b = true ↔ ReachN s.deps b 100 a)) ∧
    ∀ dep actor now, hasCycle s dep.issue_id dep.depends_on_id = true →
      (addDependency s dep actor now).1.isSome = true ∧
      (addDependency s dep actor now).2 = s := by
  refine ⟨?_, ?_, ?_⟩
  · intro h
    unfold hasCycle
    rw [if_pos (by rw [h]; exact beq_self_eq_true b)]
  · intro h
    unfold hasCycle
    rw [if_neg (by simp [h])]
    show List.elem a (reachList s.deps b 100) = true ↔ _
    rw [List.elem_iff, mem_reachList]
  · intro dep actor now h
    unfold addDependency
    rw [if_pos h]
    exact ⟨rfl, rfl⟩

theorem cycle_oracle_characterization_witness :
    hasCycle c5store "A" "A" = true ∧
    (hasCycle c5store "A" "B" = true ↔ ReachN c5store.deps "B" 100 "A") ∧
    (addDependency c5store c5dep "u" 3).1.isSome = true ∧
    (addDependency c5store c5dep "u" 3).2 = c5store :=
  ⟨(cycle_oracle_characterization c5store "A" "A").1 rfl,
   (cycle_oracle_characterization c5store "A" "B").2.1 (by decide),
   ((cycle_oracle_characterization c5store "A" "A").2.2 c5dep "u" 3 (by decide)).1,
   ((cycle_oracle_characterization c5store "A" "A").2.2 c5dep "u" 3 (by decide)).2⟩

/-- C6: successful export writes exactly the non-ephemeral issues
(tombstones included) over the destination via the temp file, and
clears the whole dirty set so `get_dirty_issues()` is empty; on
failure the temp file is gone, the error propagates, the previous
destination content is intact and the store (dirty set included) is
untouched. -/
theorem export_atomic_flush (s : StoreState) (fs : LogFS) :
    ((flushToJsonl s fs true).1 = none ∧
     (flushToJsonl s fs true).2.2.dest = some (exportList s) ∧
     (flushToJsonl s fs true).2.2.temp = none ∧
     getDirtyIssues (flushToJsonl s fs true).2.1 = []) ∧
    (∀ j, j ∈ exportList s ↔
      ∃ i, i ∈ s.issues ∧ i.ephemeral = false ∧ getIssue s i.id = some j) ∧
    ((flushToJsonl s fs false).1.isSome = true ∧
     (flushToJsonl s fs false).2.2.dest = fs.dest ∧
     (flushToJsonl s fs false).2.2.temp = none ∧
     (flushToJsonl s fs false).2.1 = s) := by
  refine ⟨⟨rfl, rfl, rfl, ?_⟩, ?_, rfl, rfl, rfl, rfl⟩
  · show (s.dirty.filter fun x => !(s.dirty.contains x)) = []
    rw [List.filter_eq_nil_iff]
    intro a ha
    simp only [Bool.not_eq_true', Bool.not_eq_false]
    exact List.elem_eq_true_of_mem ha
  · intro j
    unfold exportList searchAllIssues
    rw [List.mem_filterMap]
    constructor
    · rintro ⟨i, hi, hget⟩
      rw [List.mem_filter] at hi
      refine ⟨i, (List.mem_insertionSort _).mp hi.1, ?_, hget⟩
      have := hi.2
      simpa using this
    · rintro ⟨i, hi, heph, hget⟩
      refine ⟨i, ?_, hget⟩
      rw [List.mem_filter]
      exact ⟨(List.mem_insertionSort _).mpr hi, by simp [heph]⟩

/-! ### C9: audit events and dirty marking -/
theorem mem_markDirty_self (l : List String) (id : String) : id ∈ markDirty l id := by
  unfold markDirty
  simp

theorem mem_markDirty (l : List String) (a b : String) (h : a ∈ l ∨ a = b) :
    a ∈ markDirty l b := by
  unfold markDirty
  rcases eq_or_ne a b with rfl | hne
  · simp
  · rcases h with h | h
    · rw [List.mem_append, List.mem_filter]
      exact Or.inl ⟨h, by simpa using hne⟩
    · exact absurd h hne

theorem idExists_append_single (l : List Issue) (e : Issue) (v : String) :
    idExists (l ++ [e]) v = (idExists l v || (e.id == v)) := by
  simp [idExists, List.any_append]

theorem find?_eq_none_of_not_idExists (l : List Issue) (v : String)
    (h : idExists l v = false) : l.find? (fun i => i.id == v) = none := by
  rw [List.find?_eq_none]
  intro x hx hbeq
  have hex : idExists l v = true := by
    unfold idExists
    exact List.any_eq_true.mpr ⟨x, hx, hbeq⟩
  rw [h] at hex
  cases hex

/-- A successful `create_issue` is the unguarded write, and certifies
that the id was fresh. -/
theorem createIssue_ok (s : StoreState) (i : Issue) (actor : String) (now : Nat)
    (s' : StoreState) (h : createIssue s i actor now = Except.ok s') :
    s' = insertIssueRow s i actor now ∧ idExists s.issues i.id = false := by
  unfold createIssue at h
  split_ifs at h with hg
  refine ⟨(Except.ok.inj h).symm, ?_⟩
  simp only [Bool.or_eq_true, not_or, Bool.not_eq_true] at hg
  exact hg.1.1

/-- C9 (amended): every store mutation except `delete_issue` —
create, update (when it succeeds), close, reopen, dependency add (on
success) and remove, label add and remove, comment add — records an
audit event for the affected issue and marks it dirty, dependency
add/remove marking both endpoints. (`delete_issue` is the exception
the counterexample exhibits: it records nothing and un-marks the
issue by cascade.) -/
theorem mutation_audit_dirty_amended :
    (∀ s (i : Issue) actor now s', createIssue s i actor now = Except.ok s' →
      s'.events = s.events ++ [⟨i.id, "created", actor, none, none, none, now⟩] ∧
      i.id ∈ s'.dirty) ∧
    (∀ s id p actor now s', updateIssue s id p actor now = Except.ok s' →
      (∃ e : EventRec, s'.events = s.events ++ [e] ∧ e.issue_id = id ∧
        e.event_type = "status_changed") ∧ id ∈ s'.dirty) ∧
    (∀ s id reason actor now, (s.issues.find? (fun i => i.id == id)).isSome →
      (closeIssue s id reason actor now).events =
        s.events ++ [⟨id, "closed", actor, none, none, some reason, now⟩] ∧
      id ∈ (closeIssue s id reason actor now).dirty) ∧
    (∀ s id actor now, (s.issues.find? (fun i => i.id == id)).isSome →
      (reopenIssue s id actor now).events =
        s.events ++ [⟨id, "reopened", actor, none, none, none, now⟩] ∧
      id ∈ (reopenIssue s id actor now).dirty) ∧
    (∀ s dep actor now s', addDependency s dep actor now = (none, s') →
      s'.events = s.events ++ [⟨dep.issue_id, "dependency_added", actor, none,
        some dep.depends_on_id, none, now⟩] ∧
      dep.issue_id ∈ s'.dirty ∧ dep.depends_on_id ∈ s'.dirty) ∧
    (∀ s id did actor now, (s.issues.find? (fun i => i.id == id)).isSome →
      (removeDependency s id did actor now).events =
        s.events ++ [⟨id, "dependency_removed", actor, some did, none, none, now⟩] ∧
      id ∈ (removeDependency s id did actor now).dirty ∧
      did ∈ (removeDependency s id did actor now).dirty) ∧
    (∀ s id lbl actor now, (s.issues.find? (fun i => i.id == id)).isSome →
      (addLabel s id lbl actor now).events =
        s.events ++ [⟨id, "label_added", actor, none, some lbl, none, now⟩] ∧
      id ∈ (addLabel s id lbl actor now).dirty) ∧
    (∀ s id lbl actor now, (s.issues.find? (fun i => i.id == id)).isSome →
      (removeLabel s id lbl actor now).events =
        s.events ++ [⟨id, "label_removed", actor, some lbl, none, none, now⟩] ∧
      id ∈ (removeLabel s id lbl actor now).dirty) ∧
    (∀ s id author text now, (s.issues.find? (fun i => i.id == id)).isSome →
      (addComment s id author text now).events =
        s.events ++ [⟨id, "commented", author, none, some text, none, now⟩] ∧
      id ∈ (addComment s id author text now).dirty) := by
  refine ⟨?_, ?_, ?_, ?_, ?_, ?_, ?_, ?_, ?_⟩
  · intro s i actor now s' h
    obtain ⟨rfl, -⟩ := createIssue_ok s i actor now s' h
    exact ⟨rfl, mem_markDirty_self _ _⟩
  · intro s id p actor now s' h
    unfold updateIssue at h
    cases hf : s.issues.find? (fun i => i.id == id) with
    | none => rw [hf] at h; exact absurd h (by simp)
    | some row =>
      rw [hf] at h
      cases hp : p.assignee with
      | none => rw [hp] at h; exact absurd h (by simp)
      | some a =>
        rw [hp] at h
        have hs : s' = _ := (Except.ok.inj h).symm
        subst hs
        exact ⟨⟨_, rfl, rfl, rfl⟩, mem_markDirty_self _ _⟩
  · intro s id reason actor now h
    rw [Option.isSome_iff_exists] at h
    obtain ⟨v, hv⟩ := h
    unfold closeIssue
    rw [hv]
    exact ⟨rfl, mem_markDirty_self _ _⟩
  · intro s id actor now h
    rw [Option.isSome_iff_exists] at h
    obtain ⟨v, hv⟩ := h
    unfold reopenIssue
    rw [hv]
    exact ⟨rfl, mem_markDirty_self _ _⟩
  · intro s dep actor now s' h
    unfold addDependency at h
    split_ifs at h with h1 h2
    · exact absurd (congrArg Prod.fst h) (by simp)
    · exact absurd (congrArg Prod.fst h) (by simp)
    all_goals
      have hs : s' = _ := (congrArg Prod.snd h).symm
      subst hs
      refine ⟨rfl, ?_, mem_markDirty_self _ _⟩
      exact mem_markDirty _ _ _ (Or.inl (mem_markDirty_self _ _))
  · intro s id did actor now h
    rw [Option.isSome_iff_exists] at h
    obtain ⟨v, hv⟩ := h
    unfold removeDependency
    rw [hv]
    refine ⟨rfl, ?_, mem_markDirty_self _ _⟩
    exact mem_markDirty _ _ _ (Or.inl (mem_markDirty_self _ _))
  · intro s id lbl actor now h
    rw [Option.isSome_iff_exists] at h
    obtain ⟨v, hv⟩ := h
    unfold addLabel
    rw [hv]
    exact ⟨rfl, mem_markDirty_self _ _⟩
  · intro s id lbl actor now h
    rw [Option.isSome_iff_exists] at h
    obtain ⟨v, hv⟩ := h
    unfold removeLabel
    rw [hv]
    exact ⟨rfl, mem_markDirty_self _ _⟩
  · intro s id author text now h
    rw [Option.isSome_iff_exists] at h
    obtain ⟨v, hv⟩ := h
    unfold addComment
    rw [hv]
    exact ⟨rfl, mem_markDirty_self _ _⟩

theorem mutation_audit_dirty_amended_witness :
    (c9createState.events =
        c9s.events ++ [⟨"m-3", "created", "u", none, none, none, 2⟩] ∧
      "m-3" ∈ c9createState.dirty) ∧
    ((∃ e : EventRec, c9updState.events = c9s.events ++ [e] ∧ e.issue_id = "m-1" ∧
        e.event_type = "status_changed") ∧ "m-1" ∈ c9updState.dirty) ∧
    ((closeIssue c9s "m-1" "done" "u" 3).events =
        c9s.events ++ [⟨"m-1", "closed", "u", none, none, some "done", 3⟩] ∧
      "m-1" ∈ (closeIssue c9s "m-1" "done" "u" 3).dirty) ∧
    ((reopenIssue c9s "m-1" "u" 4).events =
        c9s.events ++ [⟨"m-1", "reopened", "u", none, none, none, 4⟩] ∧
      "m-1" ∈ (reopenIssue c9s "m-1" "u" 4).dirty) ∧
    (c9depState.events = c9s.events ++
        [⟨"m-2", "dependency_added", "u", none, some "m-1", none, 6⟩] ∧
      "m-2" ∈ c9depState.dirty ∧ "m-1" ∈ c9depState.dirty) ∧
    ((removeDependency c9s "m-2" "m-1" "u" 7).events =
        c9s.events ++ [⟨"m-2", "dependency_removed", "u", some "m-1", none, none, 7⟩] ∧
      "m-2" ∈ (removeDependency c9s "m-2" "m-1" "u" 7).dirty ∧
      "m-1" ∈ (removeDependency c9s "m-2" "m-1" "u" 7).dirty) ∧
    ((addLabel c9s "m-1" "urgent" "u" 8).events =
        c9s.events ++ [⟨"m-1", "label_added", "u", none, some "urgent", none, 8⟩] ∧
      "m-1" ∈ (addLabel c9s "m-1" "urgent" "u" 8).dirty) ∧
    ((removeLabel c9s "m-1" "urgent" "u" 9).events =
        c9s.events ++ [⟨"m-1", "label_removed", "u", some "urgent", none, none, 9⟩] ∧
      "m-1" ∈ (removeLabel c9s "m-1" "urgent" "u" 9).dirty) ∧
    ((addComment c9s "m-1" "u" "hello" 10).events =
        c9s.events ++ [⟨"m-1", "commented", "u", none, some "hello", none, 10⟩] ∧
      "m-1" ∈ (addComment c9s "m-1" "u" "hello" 10).dirty) :=
  ⟨mutation_audit_dirty_amended.1 c9s c9c "u" 2 c9createState rfl,
   mutation_audit_dirty_amended.2.1 c9s "m-1" c9patch "import" 5 c9updState rfl,
   mutation_audit_dirty_amended.2.2.1 c9s "m-1" "done" "u" 3 (by decide),
   mutation_audit_dirty_amended.2.2.2.1 c9s "m-1" "u" 4 (by decide),
   mutation_audit_dirty_amended.2.2.2.2.1 c9s c9dep "u" 6 c9depState rfl,
   mutation_audit_dirty_amended.2.2.2.2.2.1 c9s "m-2" "m-1" "u" 7 (by decide),
   mutation_audit_dirty_amended.2.2.2.2.2.2.1 c9s "m-1" "urgent" "u" 8 (by decide),
   mutation_audit_dirty_amended.2.2.2.2.2.2.2.1 c9s "m-1" "urgent" "u" 9 (by decide),
   mutation_audit_dirty_amended.2.2.2.2.2.2.2.2 c9s "m-1" "u" "hello" 10 (by decide)⟩

/-- C9 (counterexample): `delete_issue` records no audit event and
marks nothing dirty — on the contrary, the cascade wipes the issue's
events, and its dirty marker disappears with it. -/
theorem mutation_audit_dirty_counterexample :
    c9delBase.events ≠ [] ∧
    "d-1" ∈ c9delBase.dirty ∧
    (deleteIssue c9delBase "d-1").events = [] ∧
    "d-1" ∉ (deleteIssue c9delBase "d-1").dirty := by
  refine ⟨by decide, by decide, by decide, by decide⟩

/-! ### C10: metadata normalization on insert versus the content hash -/
theorem length_writeStr (s : String) : (writeStr s).length = (strBytes s).length + 1 := by
  simp [writeStr]

/-- C10: successfully creating an issue with empty `metadata` stores `"{}"` (the
hash was computed over the empty string first), so `get_issue` returns
`metadata = "{}"` while `content_hash` is the hash of the
empty-metadata stream; the hash input of the returned issue therefore
differs from the hash input at creation, and on a concrete issue
recomputing the hash of the returned issue indeed disagrees with the
stored `content_hash`. -/
theorem metadata_normalization_hash_drift :
    (∀ s (i : Issue) actor now s', i.metadata = "" →
      createIssue s i actor now = Except.ok s' →
      ∃ ret, getIssue s' i.id = some ret ∧
        ret.metadata = "\x7b\x7d" ∧
        ret.content_hash = computeContentHash i ∧
        contentHashBytes ret ≠ contentHashBytes i) ∧
    (getIssue c10state "c-1").map computeContentHash ≠
      (getIssue c10state "c-1").map (fun r => r.content_hash) := by
  constructor
  · intro s i actor now s' hmeta hok
    obtain ⟨hs', hfree⟩ := createIssue_ok s i actor now s' hok
    subst hs'
    have hfresh : s.issues.find? (fun j => j.id == i.id) = none :=
      find?_eq_none_of_not_idExists s.issues i.id hfree
    have hfind : (insertIssueRow s i actor now).issues.find? (fun j => j.id == i.id) =
        some (mkStored i) := by
      show (s.issues ++ [mkStored i]).find? (fun j => j.id == i.id) = some (mkStored i)
      rw [List.find?_append, hfresh]
      simp only [Option.none_or, List.find?_singleton]
      rw [if_pos (by show (i.id == i.id) = true; simp)]
    have hget : getIssue (insertIssueRow s i actor now) i.id = some
        { mkStored i with
          labels := getLabels (insertIssueRow s i actor now) i.id
          dependencies := getDependencyRecords (insertIssueRow s i actor now) i.id
          comments := getComments (insertIssueRow s i actor now) i.id } := by
      unfold getIssue
      rw [hfind]
      rfl
    refine ⟨_, hget, ?_, rfl, ?_⟩
    · show normalizeMeta i.metadata = "\x7b\x7d"
      rw [hmeta]
      decide
    · intro heq
      have hlen := congrArg List.length heq
      simp only [contentHashBytes, List.length_append, length_writeStr, mkStored,
        normalizeMeta, hmeta, if_true, eq_self_iff_true] at hlen
      have h2 : (strBytes "\x7b\x7d").length = 2 := by decide
      have h0 : (strBytes "").length = 0 := by decide
      rw [h2, h0] at hlen
      omega
  · decide

theorem metadata_normalization_hash_drift_witness :
    ∃ ret, getIssue c10state "c-1" = some ret ∧
      ret.metadata = "\x7b\x7d" ∧
      ret.content_hash = computeContentHash c10ex ∧
      contentHashBytes ret ≠ contentHashBytes c10ex :=
  metadata_normalization_hash_drift.1 emptyStore c10ex "u" 0 c10state rfl rfl

theorem preOf_id (x : Issue) : (preOf x).id = x.id := by
  unfold preOf wisped withHash
  split <;> rfl

theorem preOf_status (x : Issue) : (preOf x).status = x.status := by
  unfold preOf wisped withHash
  split <;> rfl

theorem preOf_content_hash (x : Issue) : (preOf x).content_hash = computeContentHash x := by
  unfold preOf wisped withHash
  split <;> rfl

theorem preOf_comments (x : Issue) : (preOf x).comments = x.comments := by
  unfold preOf wisped withHash
  split <;> rfl

/-- Hash refresh and wisp classification touch neither of the fields
the issues-table CHECK constraints read. -/
theorem rowChecksOk_preOf (x : Issue) : rowChecksOk (preOf x) = rowChecksOk x := by
  unfold preOf wisped withHash rowChecksOk
  split <;> rfl

theorem computeContentHash_ne_empty (x : Issue) : computeContentHash x ≠ "" :=
  sha256hex_ne_empty _

theorem computeContentHash_preOf (x : Issue) :
    computeContentHash (preOf x) = computeContentHash x := by
  unfold preOf wisped withHash
  split <;> rfl

theorem hashOfPre_preOf (x : Issue) : hashOfPre (preOf x) = computeContentHash x := by
  unfold hashOfPre
  rw [preOf_content_hash]
  rw [if_neg (computeContentHash_ne_empty x)]

theorem mkStored_id (x : Issue) : (mkStored x).id = x.id := rfl

theorem mkStored_status (x : Issue) : (mkStored x).status = x.status := rfl

theorem mkStored_content_hash (x : Issue) :
    (mkStored x).content_hash = computeContentHash x := rfl

theorem dbIdLookup_nil (id : String) : dbIdLookup [] id = none := rfl

theorem dbHashLookup_nil (h : String) : dbHashLookup [] h = none := by
  unfold dbHashLookup dictLookup
  split <;> rfl

theorem insertIssueRow_issues (s : StoreState) (i : Issue) (actor : String) (now : Nat) :
    (insertIssueRow s i actor now).issues = s.issues ++ [mkStored i] := rfl

theorem createAll_issues (now : Nat) :
    ∀ (pre : List Issue) (s : StoreState),
      (pre.foldl (fun st p => insertIssueRow st p "import" now) s).issues =
        s.issues ++ pre.map mkStored := by
  intro pre
  induction pre with
  | nil => intro s; simp
  | cons p rest ih =>
    intro s
    show (rest.foldl (fun st p => insertIssueRow st p "import" now)
      (insertIssueRow s p "import" now)).issues = _
    rw [ih, insertIssueRow_issues]
    simp

/-- The first pass of the reconciliation loop over an empty snapshot:
every unseen, pairwise-distinct record that satisfies the issues-table
constraints (CHECKs, fresh primary key, self-referential comments at
most) is created. -/
theorem importLoop_nil_snap (now : Nat) :
    ∀ (pre : List Issue) (acc : LoopAcc),
      (∀ p ∈ pre, acc.seenH.contains (hashOfPre p) = false ∧
        acc.seenI.contains p.id = false) →
      (∀ p ∈ pre, rowChecksOk p = true ∧
        p.comments.all (fun c => c.issue_id == "" || c.issue_id == p.id) = true ∧
        idExists acc.store.issues p.id = false) →
      (pre.map hashOfPre).Nodup → (pre.map (fun p => p.id)).Nodup →
      ∃ sh si, importLoop [] now pre acc =
        Except.ok ⟨{ acc.res with created := acc.res.created + pre.length },
          pre.foldl (fun st p => insertIssueRow st p "import" now) acc.store, sh, si⟩ := by
  intro pre
  induction pre with
  | nil =>
    intro acc _ _ _ _
    exact ⟨acc.seenH, acc.seenI, rfl⟩
  | cons p rest ih =>
    intro acc hseen hvalid hH hI
    obtain ⟨hph, hpi⟩ := hseen p (List.mem_cons_self p rest)
    obtain ⟨hrow, hcomm, hidex⟩ := hvalid p (List.mem_cons_self p rest)
    have hself : idExists (acc.store.issues ++ [mkStored p]) p.id = true := by
      rw [idExists_append_single]
      simp [mkStored_id]
    have hcfk : commentFkOk (acc.store.issues ++ [mkStored p]) p = true := by
      unfold commentFkOk
      rw [List.all_eq_true] at hcomm ⊢
      intro c hc
      have hcor := hcomm c hc
      rw [Bool.or_eq_true] at hcor
      rcases hcor with hce | hcp
      · rw [beq_iff_eq] at hce
        rw [if_pos hce]
        exact hself
      · rw [beq_iff_eq] at hcp
        rw [hcp]
        split
        · exact hself
        · exact hself
    have hcr : createIssue acc.store p "import" now =
        Except.ok (insertIssueRow acc.store p "import" now) := by
      have hcond : (idExists acc.store.issues p.id || !rowChecksOk p ||
          !commentFkOk (acc.store.issues ++ [mkStored p]) p) = false := by
        rw [hidex, hrow, hcfk]
        rfl
      unfold createIssue
      rw [if_neg (by simp [hcond])]
    have hstep : importLoop [] now (p :: rest) acc =
        importLoop [] now rest
          ⟨{ acc.res with created := acc.res.created + 1 },
            insertIssueRow acc.store p "import" now,
            hashOfPre p :: acc.seenH, p.id :: acc.seenI⟩ := by
      simp only [importLoop, hph, hpi, Bool.false_eq_true, if_false,
        dbIdLookup_nil, dbHashLookup_nil, hcr]
    rw [List.map_cons, List.nodup_cons] at hH hI
    have hseen' : ∀ q ∈ rest,
        ((hashOfPre p :: acc.seenH).contains (hashOfPre q) = false ∧
          (p.id :: acc.seenI).contains q.id = false) := by
      intro q hq
      have h1 := (hseen q (List.mem_cons_of_mem p hq)).1
      have h2 := (hseen q (List.mem_cons_of_mem p hq)).2
      have hqh : hashOfPre q ≠ hashOfPre p := by
        intro he
        exact hH.1 (he ▸ List.mem_map_of_mem hashOfPre hq)
      have hqi : q.id ≠ p.id := by
        intro he
        exact hI.1 (he ▸ List.mem_map_of_mem (fun r => r.id) hq)
      constructor
      · rw [List.contains_cons, Bool.or_eq_false_iff]
        exact ⟨beq_eq_false_iff_ne.mpr hqh, h1⟩
      · rw [List.contains_cons, Bool.or_eq_false_iff]
        exact ⟨beq_eq_false_iff_ne.mpr hqi, h2⟩
    have hvalid' : ∀ q ∈ rest, rowChecksOk q = true ∧
        q.comments.all (fun c => c.issue_id == "" || c.issue_id == q.id) = true ∧
        idExists (insertIssueRow acc.store p "import" now).issues q.id = false := by
      intro q hq
      obtain ⟨hr, hc2, hi2⟩ := hvalid q (List.mem_cons_of_mem p hq)
      have hqi : q.id ≠ p.id := by
        intro he
        exact hI.1 (he ▸ List.mem_map_of_mem (fun r => r.id) hq)
      refine ⟨hr, hc2, ?_⟩
      show idExists (acc.store.issues ++ [mkStored p]) q.id = false
      rw [idExists_append_single, hi2, Bool.false_or]
      show (p.id == q.id) = false
      exact beq_eq_false_iff_ne.mpr (Ne.symm hqi)
    obtain ⟨sh, si, heq⟩ := ih
      ⟨{ acc.res with created := acc.res.created + 1 },
        insertIssueRow acc.store p "import" now,
        hashOfPre p :: acc.seenH, p.id :: acc.seenI⟩ hseen' hvalid' hH.2 hI.2
    refine ⟨sh, si, ?_⟩
    rw [hstep, heq]
    simp only [Except.ok.injEq, LoopAcc.mk.injEq, ImportResult.mk.injEq,
      List.length_cons, List.foldl_cons]
    refine ⟨⟨by omega, by trivial, by trivial, by trivial, by trivial⟩, by trivial, by trivial, by trivial⟩

/-- The second pass: every record whose id and hash are both found in
the snapshot (same id, non-tombstone) is counted unchanged and the
store is untouched. -/
theorem importLoop_all_unchanged (snap : List Issue) (now : Nat) :
    ∀ (pre : List Issue) (acc : LoopAcc),
      (∀ p ∈ pre, acc.seenH.contains (hashOfPre p) = false ∧
        acc.seenI.contains p.id = false) →
      (pre.map hashOfPre).Nodup → (pre.map (fun p => p.id)).Nodup →
      (∀ p ∈ pre, ∃ e, dbIdLookup snap p.id = some e ∧
        (e.status == "tombstone") = false) →
      (∀ p ∈ pre, ∃ e, dbHashLookup snap (hashOfPre p) = some e ∧
        (e.id == p.id) = true) →
      ∃ sh si, importLoop snap now pre acc =
        Except.ok ⟨{ acc.res with unchanged := acc.res.unchanged + pre.length },
          acc.store, sh, si⟩ := by
  intro pre
  induction pre with
  | nil =>
    intro acc _ _ _ _ _
    exact ⟨acc.seenH, acc.seenI, rfl⟩
  | cons p rest ih =>
    intro acc hseen hH hI hbyid hbyhash
    obtain ⟨hph, hpi⟩ := hseen p (List.mem_cons_self p rest)
    obtain ⟨e, he, het⟩ := hbyid p (List.mem_cons_self p rest)
    obtain ⟨e', he', hei⟩ := hbyhash p (List.mem_cons_self p rest)
    have hstep : importLoop snap now (p :: rest) acc =
        importLoop snap now rest
          ⟨{ acc.res with unchanged := acc.res.unchanged + 1 },
            acc.store, hashOfPre p :: acc.seenH, p.id :: acc.seenI⟩ := by
      simp only [importLoop, hph, hpi, Bool.false_eq_true, if_false, he, he',
        het, hei, if_true]
    rw [List.map_cons, List.nodup_cons] at hH hI
    have hseen' : ∀ q ∈ rest,
        ((hashOfPre p :: acc.seenH).contains (hashOfPre q) = false ∧
          (p.id :: acc.seenI).contains q.id = false) := by
      intro q hq
      have h1 := (hseen q (List.mem_cons_of_mem p hq)).1
      have h2 := (hseen q (List.mem_cons_of_mem p hq)).2
      have hqh : hashOfPre q ≠ hashOfPre p := by
        intro he2
        exact hH.1 (he2 ▸ List.mem_map_of_mem hashOfPre hq)
      have hqi : q.id ≠ p.id := by
        intro he2
        exact hI.1 (he2 ▸ List.mem_map_of_mem (fun r => r.id) hq)
      constructor
      · rw [List.contains_cons, Bool.or_eq_false_iff]
        exact ⟨beq_eq_false_iff_ne.mpr hqh, h1⟩
      · rw [List.contains_cons, Bool.or_eq_false_iff]
        exact ⟨beq_eq_false_iff_ne.mpr hqi, h2⟩
    obtain ⟨sh, si, heq⟩ := ih
      ⟨{ acc.res with unchanged := acc.res.unchanged + 1 },
        acc.store, hashOfPre p :: acc.seenH, p.id :: acc.seenI⟩ hseen' hH.2 hI.2
      (fun q hq => hbyid q (List.mem_cons_of_mem p hq))
      (fun q hq => hbyhash q (List.mem_cons_of_mem p hq))
    refine ⟨sh, si, ?_⟩
    rw [hstep, heq]
    simp only [Except.ok.injEq, LoopAcc.mk.injEq, ImportResult.mk.injEq,
      List.length_cons]
    refine ⟨⟨by trivial, by trivial, by omega, by trivial, by trivial⟩, by trivial, by trivial, by trivial⟩

theorem deletionIds_map_issue (xs : List Issue) :
    deletionIds (xs.map JRec.issue) = [] := by
  unfold deletionIds
  induction xs with
  | nil => rfl
  | cons x t ih => simp [ih]

theorem issueRecs_map_issue (xs : List Issue) :
    issueRecs (xs.map JRec.issue) = xs := by
  unfold issueRecs
  induction xs with
  | nil => rfl
  | cons x t ih => simpa using ih

theorem list_map_ext {α β : Type} (f g : α → β) (h : ∀ a, f a = g a) :
    ∀ l : List α, l.map f = l.map g := by
  intro l
  induction l with
  | nil => rfl
  | cons a t ih => simp [h, ih]

/-- In a list whose `f`-keys are pairwise distinct, `find?` on the key
of a member returns exactly that member. -/
theorem find?_unique_key (f : Issue → String) (v : String) :
    ∀ (l : List Issue) (e : Issue), (l.map f).Nodup → e ∈ l → f e = v →
      l.find? (fun i => f i == v) = some e := by
  intro l
  induction l with
  | nil => intro e _ he _; cases he
  | cons a t ih =>
    intro e hnd he hv
    rw [List.map_cons, List.nodup_cons] at hnd
    rcases List.mem_cons.mp he with rfl | ht
    · rw [List.find?_cons_of_pos t (by simp [hv])]
    · have hne : (f a == v) = false := by
        rw [beq_eq_false_iff_ne]
        intro hfe
        apply hnd.1
        rw [hfe, ← hv]
        exact List.mem_map_of_mem f ht
      rw [List.find?_cons_of_neg t (by simp [hne])]
      exact ih e hnd.2 ht hv

theorem searchAllIssues_empty : searchAllIssues emptyStore = [] := rfl

set_option maxHeartbeats 2000000 in
/-- Any issue accepted by `Issue.validate` satisfies the issues-table
CHECK constraints enforced by the `create_issue` INSERT. -/
theorem rowChecksOk_of_validate (i : Issue) (h : validate i = none) :
    rowChecksOk i = true := by
  unfold validate at h
  split_ifs at h with a1 a2 a3 a4 a5 a6 a7 a8 a9 a10 a11
  have ht : i.title.length ≤ 500 := by omega
  push_neg at a3
  by_cases hcl : i.status = "closed"
  · have hcv : i.closed_at ≠ none := fun hn => a7 ⟨hcl, hn⟩
    obtain ⟨v, hv⟩ := Option.ne_none_iff_exists'.mp hcv
    unfold rowChecksOk
    rw [hcl, hv]
    simp only [Bool.and_eq_true, Bool.or_eq_true, decide_eq_true_eq]
    exact ⟨⟨⟨ht, a3.1⟩, a3.2⟩, Or.inl (Or.inl ⟨by simp, by simp⟩)⟩
  · by_cases htb : i.status = "tombstone"
    · unfold rowChecksOk
      rw [htb]
      simp only [Bool.and_eq_true, Bool.or_eq_true, decide_eq_true_eq]
      exact ⟨⟨⟨ht, a3.1⟩, a3.2⟩, Or.inl (Or.inr (by simp))⟩
    · have hcn : i.closed_at = none := by
        by_contra hn
        exact a8 ⟨hcl, htb, hn⟩
      unfold rowChecksOk
      rw [hcn]
      simp only [Bool.and_eq_true, Bool.or_eq_true, decide_eq_true_eq]
      refine ⟨⟨⟨ht, a3.1⟩, a3.2⟩, Or.inr ⟨?_, by simp⟩⟩
      rw [Bool.not_eq_true', Bool.or_eq_false_iff]
      exact ⟨beq_eq_false_iff_ne.mpr hcl, beq_eq_false_iff_ne.mpr htb⟩

set_option maxHeartbeats 1000000 in
/-- C3 (amended): importing a batch of issue records with pairwise
distinct ids and pairwise distinct content hashes, none of them
tombstones, no deletion markers, every record within the issues-table
CHECK constraints (any record passing `Issue.validate` is, by
`rowChecksOk_of_validate`) and carrying only self-referential
comments, into an empty store creates all of them; importing the same
records again yields
`created = 0, updated = 0, unchanged = |X|, skipped = 0, deleted = 0`.
Without the constraint hypotheses `create_issue` raises
`sqlite3.IntegrityError` and the import aborts; without distinctness
the counterexample shows the original unconditional claim fails
already for a batch containing the same record twice. -/
theorem import_idempotent_amended (xs : List Issue) (t1 t2 : Nat)
    (hid : (xs.map (fun i => i.id)).Nodup)
    (hhash : (xs.map computeContentHash).Nodup)
    (htomb : ∀ i ∈ xs, i.status ≠ "tombstone")
    (hrow : ∀ i ∈ xs, rowChecksOk i = true)
    (hcomm : ∀ i ∈ xs,
      i.comments.all (fun c => c.issue_id == "" || c.issue_id == i.id) = true) :
    ∃ s1 s2,
      importJsonl emptyStore (xs.map JRec.issue) t1 =
        Except.ok (⟨xs.length, 0, 0, 0, 0⟩, s1) ∧
      importJsonl s1 (xs.map JRec.issue) t2 =
        Except.ok (⟨0, 0, xs.length, 0, 0⟩, s2) := by
  have hmapH : (xs.map (fun i => wisped (withHash i))).map hashOfPre =
      xs.map computeContentHash := by
    rw [List.map_map]
    exact list_map_ext _ _ (fun a => hashOfPre_preOf a) xs
  have hmapI : (xs.map (fun i => wisped (withHash i))).map (fun p => p.id) =
      xs.map (fun i => i.id) := by
    rw [List.map_map]
    exact list_map_ext _ _ (fun a => preOf_id a) xs
  have hvalidPre : ∀ p ∈ xs.map (fun i => wisped (withHash i)),
      rowChecksOk p = true ∧
      p.comments.all (fun c => c.issue_id == "" || c.issue_id == p.id) = true ∧
      idExists (emptyStore : StoreState).issues p.id = false := by
    intro p hp
    obtain ⟨x, hx, rfl⟩ := List.mem_map.mp hp
    refine ⟨(rowChecksOk_preOf x).trans (hrow x hx), ?_, rfl⟩
    rw [show (wisped (withHash x)).comments = x.comments from preOf_comments x,
      show (wisped (withHash x)).id = x.id from preOf_id x]
    exact hcomm x hx
  obtain ⟨sh1, si1, heq1⟩ := importLoop_nil_snap t1
    (xs.map (fun i => wisped (withHash i)))
    ⟨{ deleted := 0 }, emptyStore, [], []⟩
    (fun p _ => ⟨rfl, rfl⟩) hvalidPre
    (by rw [hmapH]; exact hhash) (by rw [hmapI]; exact hid)
  have hA : importJsonl emptyStore (xs.map JRec.issue) t1 =
      Except.ok (⟨xs.length, 0, 0, 0, 0⟩, createdStore xs t1) := by
    simp only [importJsonl, deletionIds_map_issue, issueRecs_map_issue,
      processDeletions, List.foldl_nil, searchAllIssues_empty]
    rw [heq1]
    simp only [Except.ok.injEq, Prod.mk.injEq, ImportResult.mk.injEq, List.length_map]
    exact ⟨⟨by omega, by trivial, by trivial, by trivial, by trivial⟩, by trivial⟩
  have hS1issues : (createdStore xs t1).issues =
      (xs.map (fun i => wisped (withHash i))).map mkStored := by
    unfold createdStore
    rw [createAll_issues]
    rfl
  have hpermRev : List.Perm (searchAllIssues (createdStore xs t1)).reverse
      ((xs.map (fun i => wisped (withHash i))).map mkStored) := by
    refine (List.reverse_perm _).trans ?_
    unfold searchAllIssues
    rw [hS1issues]
    exact List.perm_insertionSort _ _
  have hndId : ((searchAllIssues (createdStore xs t1)).reverse.map
      (fun i => i.id)).Nodup := by
    refine ((hpermRev.map (fun i => i.id)).nodup_iff).mpr ?_
    rw [List.map_map]
    have : (xs.map (fun i => wisped (withHash i))).map
        ((fun i => i.id) ∘ mkStored) = xs.map (fun i => i.id) := by
      rw [List.map_map]
      exact list_map_ext _ _ (fun a => preOf_id a) xs
    rw [← List.map_map, List.map_map]
    rw [this]
    exact hid
  have hndHash : ((searchAllIssues (createdStore xs t1)).reverse.map
      (fun i => i.content_hash)).Nodup := by
    refine ((hpermRev.map (fun i => i.content_hash)).nodup_iff).mpr ?_
    rw [List.map_map]
    have : (xs.map (fun i => wisped (withHash i))).map
        ((fun i => i.content_hash) ∘ mkStored) = xs.map computeContentHash := by
      rw [List.map_map]
      exact list_map_ext _ _ (fun a => computeContentHash_preOf a) xs
    rw [← List.map_map, List.map_map]
    rw [this]
    exact hhash
  have hbyid : ∀ p ∈ xs.map (fun i => wisped (withHash i)),
      ∃ e, dbIdLookup (searchAllIssues (createdStore xs t1)) p.id = some e ∧
        (e.status == "tombstone") = false := by
    intro p hp
    obtain ⟨x, hx, rfl⟩ := List.mem_map.mp hp
    refine ⟨mkStored (wisped (withHash x)), ?_, ?_⟩
    · unfold dbIdLookup dictLookup
      refine find?_unique_key (fun i => i.id) _ _ _ hndId ?_ rfl
      exact hpermRev.mem_iff.mpr (List.mem_map_of_mem mkStored hp)
    · rw [beq_eq_false_iff_ne]
      show (mkStored (wisped (withHash x))).status ≠ "tombstone"
      have hst : (mkStored (wisped (withHash x))).status = x.status := preOf_status x
      rw [hst]
      exact htomb x hx
  have hbyhash : ∀ p ∈ xs.map (fun i => wisped (withHash i)),
      ∃ e, dbHashLookup (searchAllIssues (createdStore xs t1)) (hashOfPre p) = some e ∧
        (e.id == p.id) = true := by
    intro p hp
    obtain ⟨x, hx, rfl⟩ := List.mem_map.mp hp
    refine ⟨mkStored (wisped (withHash x)), ?_, ?_⟩
    · unfold dbHashLookup dictLookup
      rw [if_neg (by
        intro h0
        exact computeContentHash_ne_empty x ((hashOfPre_preOf x).symm.trans h0))]
      refine find?_unique_key (fun i => i.content_hash) _ _ _ hndHash ?_ ?_
      · exact hpermRev.mem_iff.mpr (List.mem_map_of_mem mkStored hp)
      · exact (computeContentHash_preOf x).trans (hashOfPre_preOf x).symm
    · rw [beq_iff_eq]
      rfl
  obtain ⟨sh2, si2, heq2⟩ := importLoop_all_unchanged
    (searchAllIssues (createdStore xs t1)) t2
    (xs.map (fun i => wisped (withHash i)))
    ⟨{ deleted := 0 }, createdStore xs t1, [], []⟩
    (fun p _ => ⟨rfl, rfl⟩) (by rw [hmapH]; exact hhash) (by rw [hmapI]; exact hid)
    hbyid hbyhash
  have hB : importJsonl (createdStore xs t1) (xs.map JRec.issue) t2 =
      Except.ok (⟨0, 0, xs.length, 0, 0⟩, createdStore xs t1) := by
    simp only [importJsonl, deletionIds_map_issue, issueRecs_map_issue,
      processDeletions, List.foldl_nil]
    rw [heq2]
    simp only [Except.ok.injEq, Prod.mk.injEq, ImportResult.mk.injEq, List.length_map]
    exact ⟨⟨by trivial, by trivial, by omega, by trivial, by trivial⟩, by trivial⟩
  exact ⟨createdStore xs t1, createdStore xs t1, hA, hB⟩

theorem import_idempotent_amended_witness :
    ∃ s1 s2,
      importJsonl emptyStore ([c3x1, c3x2].map JRec.issue) 0 =
        Except.ok (⟨2, 0, 0, 0, 0⟩, s1) ∧
      importJsonl s1 ([c3x1, c3x2].map JRec.issue) 1 =
        Except.ok (⟨0, 0, 2, 0, 0⟩, s2) :=
  import_idempotent_amended [c3x1, c3x2] 0 1 (by decide) (by decide) (by decide)
    (by decide) (by decide)

/-- C3 (counterexample): for the batch `X = [r, r]` (the same record
twice, `|X| = 2`), the second import tallies
`unchanged = 1, skipped = 1` — not `unchanged = |X|, skipped = 0` as
the claim states, because intra-batch dedup skips the duplicate. -/
theorem import_idempotent_counterexample :
    c3dupSecond = some ⟨0, 0, 1, 1, 0⟩ ∧
    c3dupSecond ≠ some ⟨0, 0, 2, 0, 0⟩ := by
  refine ⟨by decide, by decide⟩

/-- C4 (code bug, evaluated at the failing input): the store holds
`p-1` with `updated_at = 0`; an incoming record with the same id, a
different hash, `updated_at = 5` and an empty assignee reaches
Phase 2, where `update_issue` sets `current.assignee = None`
(`incoming.assignee or None`) and `compute_content_hash` then raises
`AttributeError` (`None.encode`) before the UPDATE runs — the import
aborts instead of patching and counting `updated = 1`. With a
non-empty assignee the very same flow patches and counts
`updated = 1`, isolating the bug to the empty-assignee case. -/
theorem import_update_crash :
    importJsonl c4store [JRec.issue c4incoming] 6 =
      Except.error "AttributeError: NoneType object has no attribute encode" ∧
    c4okRes = some ⟨0, 1, 0, 0, 0⟩ := by
  refine ⟨rfl, by decide⟩

end Beads

